import Mathlib

/-!
Verification development for the y-cli agent-execution engine.

This file gives a shallow Lean embedding of the core of the repository:
the agent loop (`src/agent/src/agent/loop.py`), the permission evaluator
(`src/agent/src/agent/permissions.py`), the backfill primitive
(`src/storage/src/storage/util.py`), the chat DTO serialization
(`src/storage/src/storage/entity/dto.py`) and the approval HTTP handlers
(`src/api/src/api/controller/chat.py`).

Python-specific conventions reflected in the embedding:
* Python dict values that flow through the code are modelled by `PyVal`;
  JSON decoding (`json.loads`) is a standard-library dependency and is
  modelled as an environment function returning an optional decoded
  object (decode failure corresponds to `none`, matching the
  `except (json.JSONDecodeError, TypeError)` handlers that replace the
  result with the empty dict).
* Truthiness tests on optional strings / lists are made explicit
  (`None` and the empty string / empty list are falsy).
* In-place mutation of message lists and tool-call dicts becomes
  functional update; identifier/timestamp generation
  (`generate_message_id`, `get_iso8601_timestamp`, `get_unix_timestamp`)
  is modelled by generator functions indexed by a counter that is
  threaded through each operation.
-/

set_option maxHeartbeats 1000000

namespace YCli

/-- A Python/JSON value, as carried in decoded tool arguments and in the
dict form of messages.  Numbers are restricted to integers (the code under
verification never manipulates non-integer numeric fields). -/
inductive PyVal where
  | str (s : String)
  | int (n : Int)
  | bool (b : Bool)
  | none
  | list (xs : List PyVal)
  | dict (kvs : List (String × PyVal))
deriving Repr

/-- A Python dict with string keys, in insertion order. -/
abbrev PyDict := List (String × PyVal)

/-- The four ToolCall lifecycle statuses (`"pending"`, `"approved"`,
`"rejected"`, `"cancelled"` in the Python source). -/
inductive TCStatus where
  | pending
  | approved
  | rejected
  | cancelled
deriving DecidableEq, Repr

/-- A tool call embedded in an assistant message: the dict
`{id, function: {name, arguments}, status?}` of the source.  `fname` and
`fargs` are `function.name` and `function.arguments` (the JSON-encoded
argument string); `status == Option.none` models absence of the
`"status"` key. -/
structure ToolCall where
  id : String
  fname : String
  fargs : String
  status : Option TCStatus
deriving DecidableEq, Repr

/-- One element of a structured message content list
(`ContentPart` in `dto.py`). -/
structure ContentPart where
  text : String
  type : String
deriving DecidableEq, Repr

/-- Content of a message: either a plain string or a list of content
parts (the `Union[str, Iterable[ContentPart]]` of `dto.py`). -/
inductive MContent where
  | str (s : String)
  | parts (ps : List ContentPart)
deriving DecidableEq, Repr

/-- The `Message` dataclass of `dto.py`.  Field order and optionality
follow the source; `arguments` holds the decoded tool arguments dict. -/
structure Message where
  role : String
  content : MContent
  timestamp : String
  unix_timestamp : Int
  reasoning_content : Option String := Option.none
  reasoning_effort : Option String := Option.none
  links : Option (List String) := Option.none
  images : Option (List String) := Option.none
  model : Option String := Option.none
  provider : Option String := Option.none
  id : Option String := Option.none
  parent_id : Option String := Option.none
  server : Option String := Option.none
  tool : Option String := Option.none
  arguments : Option PyDict := Option.none
  tool_calls : Option (List ToolCall) := Option.none
  tool_call_id : Option String := Option.none
deriving Repr

instance : Inhabited Message :=
  ⟨{ role := "", content := MContent.str "", timestamp := "", unix_timestamp := 0 }⟩

/-- The `Chat` dataclass of `dto.py`. -/
structure Chat where
  id : String
  create_time : String
  update_time : String
  messages : List Message
  external_id : Option String := Option.none
  content_hash : Option String := Option.none
  origin_chat_id : Option String := Option.none
  origin_message_id : Option String := Option.none
  auto_approve : Bool := false
  interrupted : Bool := false
deriving Repr

/-! ## Python string helpers

All character-level work is done on `String.data` (the underlying list of
characters), which matches Python's code-point based `len` and slicing. -/

/-- Length of a string in characters (Python `len`). -/
def strLen (s : String) : Nat := s.data.length

/-- Python whitespace for `str.split()` / `str.strip()` (the ASCII
whitespace characters; the code never handles non-ASCII whitespace). -/
def pyIsSpace (c : Char) : Bool :=
  c == ' ' || c == '\t' || c == '\n' || c == '\r' ||
  c == Char.ofNat 11 || c == Char.ofNat 12

/-- Python `str.strip()` on a character list. -/
def pyStripList (s : List Char) : List Char :=
  ((s.dropWhile pyIsSpace).reverse.dropWhile pyIsSpace).reverse

/-- Python `s.split(None, 1)` on a stripped, nonempty command: the first
whitespace-delimited token and the remainder after the whitespace run. -/
def splitFirstToken (s : List Char) : List Char × List Char :=
  (s.takeWhile (fun c => !pyIsSpace c),
   (s.dropWhile (fun c => !pyIsSpace c)).dropWhile pyIsSpace)

/-! ## Unix-shell glob matching

Model of the standard-library `fnmatch.fnmatch` used by
`PermissionManager._check_bash_permission` (POSIX `normcase` is the
identity, so matching is case-sensitive).  Supported syntax as in
`fnmatch.translate`: `*`, `?`, and bracket classes `[seq]` / `[!seq]`
with ranges, where a `]` right after the opening (or after `!`) is a
literal member and an unmatched `[` matches itself. -/

/-- Scan a bracket class up to the closing `]`; returns the class body
and the rest of the pattern, or `none` if the class is unterminated. -/
def scanClass : List Char → Option (List Char × List Char)
  | [] => Option.none
  | c :: rest =>
    if c == ']' then some ([], rest)
    else match scanClass rest with
      | some (body, r) => some (c :: body, r)
      | Option.none => Option.none

theorem scanClass_length : ∀ t s r, scanClass t = some (s, r) → r.length ≤ t.length := by
  intro t
  induction t with
  | nil => intro s r h; simp [scanClass] at h
  | cons c rest ih =>
    intro s r h
    simp only [scanClass] at h
    split at h
    · cases h
      exact Nat.le_succ _
    · cases heq : scanClass rest with
      | none => rw [heq] at h; cases h
      | some p =>
        rw [heq] at h
        cases p with
        | mk body r' =>
          cases h
          exact Nat.le_succ_of_le (ih _ _ heq)

/-- Helper for `parseBracket`: the first character after the optional
`!` is consumed unconditionally (so a leading `]` is a literal member),
then characters up to the closing `]`. -/
def parseBracketBody (neg : Bool) : List Char → Option (Bool × List Char × List Char)
  | [] => Option.none
  | c :: t =>
    match scanClass t with
    | some (body, r) => some (neg, c :: body, r)
    | Option.none => Option.none

theorem parseBracketBody_length :
    ∀ neg l n body r, parseBracketBody neg l = some (n, body, r) → r.length ≤ l.length := by
  intro neg l n body r h
  cases l with
  | nil => simp [parseBracketBody] at h
  | cons c t =>
    simp only [parseBracketBody] at h
    cases heq : scanClass t with
    | none => rw [heq] at h; cases h
    | some p =>
      cases p with
      | mk b rr =>
        rw [heq] at h
        cases h
        exact Nat.le_succ_of_le (scanClass_length t _ _ heq)

/-- Parse the body of a bracket class that starts right after `[`:
an optional leading `!` negates; returns `(negated, class body, rest)`,
or `none` when the class is unterminated (unmatched `[`). -/
def parseBracket : List Char → Option (Bool × List Char × List Char)
  | '!' :: t => parseBracketBody true t
  | ps => parseBracketBody false ps

theorem parseBracket_length :
    ∀ ps neg body r, parseBracket ps = some (neg, body, r) → r.length ≤ ps.length := by
  intro ps neg body r h
  unfold parseBracket at h
  split at h
  · exact Nat.le_succ_of_le (parseBracketBody_length _ _ _ _ _ h)
  · exact parseBracketBody_length _ _ _ _ _ h

/-- Does a character match a bracket-class body?  Ranges `a-b` are
honoured; a `-` at the start or end of the body is a literal member. -/
def classMatches : List Char → Char → Bool
  | [], _ => false
  | a :: '-' :: b :: rest, c =>
    if b == ']' then (a == c) || ('-' == c) || (']' == c) || classMatches rest c
    else (a ≤ c && c ≤ b) || classMatches rest c
  | a :: rest, c => (a == c) || classMatches rest c

/-- Glob matching with explicit fuel (structural recursion, so that the
kernel can evaluate it): `*`, `?` and bracket classes, everything else
literal, anchored at both ends.  Every recursive call shortens
`pattern.length + s.length` by at least one (for the bracket case by
`parseBracket_length`), so fuel `pattern.length + s.length + 1` — as
supplied by `globMatch` — is never exhausted. -/
def globMatchF : Nat → List Char → List Char → Bool
  | 0, _, _ => false
  | f + 1, p, s =>
    match p with
    | [] => s.isEmpty
    | pc :: ps =>
      if pc == '*' then
        globMatchF f ps s ||
          (match s with
           | [] => false
           | _ :: s1 => globMatchF f (pc :: ps) s1)
      else
        match s with
        | [] => false
        | c :: s1 =>
          if pc == '?' then globMatchF f ps s1
          else if pc == '[' then
            match parseBracket ps with
            | some (neg, body, rest) => (classMatches body c != neg) && globMatchF f rest s1
            | Option.none => (pc == c) && globMatchF f ps s1
          else (pc == c) && globMatchF f ps s1

/-- Glob matching of a pattern against a string, both as character
lists (the semantics of `fnmatch.fnmatch`). -/
def globMatch (p s : List Char) : Bool :=
  globMatchF (p.length + s.length + 1) p s

/-- `fnmatch.fnmatch(name, pattern)` (POSIX case-sensitive form). -/
def fnmatch (name pattern : String) : Bool :=
  globMatch pattern.data name.data

/-! ## Permission evaluator (`src/agent/src/agent/permissions.py`)

`PermissionManager` is modelled by its loaded `allow_patterns` list; the
configuration file I/O of `_load_config` is outside the model. -/

/-- Tools that are always allowed without permission checks
(`PermissionManager.ALWAYS_ALLOWED`). -/
def ALWAYS_ALLOWED : List String := ["file_read", "file_write", "file_edit"]

/-- Split a pattern body at the first `:` (Python `inner.split(":", 1)`);
returns `none` when there is no colon. -/
def splitAtColon (l : List Char) : Option (List Char × List Char) :=
  match l.findIdx? (fun c => c == ':') with
  | some i => some (l.take i, l.drop (i + 1))
  | Option.none => Option.none

/-- The body of the `for pattern in self.allow_patterns` loop of
`PermissionManager._check_bash_permission`, for one pattern and the
already-split `(program, args)` of the command: skip patterns not of the
form `Bash(...)`; `Bash(*)` admits everything; no colon means "match the
program only"; otherwise match program and arguments separately, with
`*` as arguments pattern meaning "any arguments". -/
def bashPatternAdmits (pattern : String) (program args : List Char) : Bool :=
  if !(("Bash(".data).isPrefixOf pattern.data && [')'].isSuffixOf pattern.data) then false
  else
    let inner := (pattern.data.drop 5).dropLast
    if inner == ['*'] then true
    else
      match splitAtColon inner with
      | Option.none => globMatch inner program
      | some (progPat, argsPat) =>
        if !(globMatch progPat program) then false
        else argsPat == ['*'] || globMatch argsPat args

/-- `PermissionManager._check_bash_permission`: strip the command,
deny empty commands, split off the first token and try each allow
pattern in turn (the early-`return` loop is an `any`). -/
def check_bash_permission (allowPatterns : List String) (command : String) : Bool :=
  let cmd := pyStripList command.data
  if cmd.isEmpty then false
  else
    let (program, args) := splitFirstToken cmd
    allowPatterns.any (fun pattern => bashPatternAdmits pattern program args)

/-- Lookup in a Python dict (first binding of the key). -/
def dictGet (d : PyDict) (k : String) : Option PyVal :=
  (d.find? (fun kv => kv.1 == k)).map (fun kv => kv.2)

/-- `arguments.get("command", "")` as used by `is_allowed`; a missing
key yields the empty string.  (A non-string value would raise in the
Python `.strip()` call and is outside the model.) -/
def getCommandArg (d : PyDict) : String :=
  match dictGet d "command" with
  | some (PyVal.str s) => s
  | _ => ""

/-- `PermissionManager.is_allowed`: the always-allowed set, then the
bash allow-list, then deny by default. -/
def is_allowed (allowPatterns : List String) (tool_name : String) (arguments : PyDict) : Bool :=
  if ALWAYS_ALLOWED.contains tool_name then true
  else if tool_name == "bash" then
    check_bash_permission allowPatterns (getCommandArg arguments)
  else false

/-! ## Python `repr` of decoded argument values

The denial / cancellation strings interpolate the decoded arguments dict
with an f-string, which calls `str` = `repr` on the dict. -/

/-- Characters escaped by Python `repr` inside a single-quoted string
literal (backslash, the quote itself and common control characters;
escapes of rarer control characters are not modelled). -/
def pyEscapeChar (c : Char) : List Char :=
  if c == '\\' then ['\\', '\\']
  else if c == Char.ofNat 39 then ['\\', Char.ofNat 39]
  else if c == '\n' then ['\\', 'n']
  else if c == '\r' then ['\\', 'r']
  else if c == '\t' then ['\\', 't']
  else [c]

/-- Python `repr` of a string (always using single quotes; the
double-quote fallback for strings containing a quote is not modelled). -/
def pyReprStr (s : String) : String :=
  String.mk (Char.ofNat 39 :: s.data.foldr (fun c acc => pyEscapeChar c ++ acc) [Char.ofNat 39])

/-- Python `repr` of a value (`str` and f-string interpolation of
containers agree with `repr`). -/
def pyRepr : PyVal → String
  | PyVal.str s => pyReprStr s
  | PyVal.int n => toString n
  | PyVal.bool b => if b then "True" else "False"
  | PyVal.none => "None"
  | PyVal.list xs =>
    "[" ++ String.intercalate ", " (xs.attach.map (fun x => pyRepr x.1)) ++ "]"
  | PyVal.dict kvs =>
    "\x7b" ++
      String.intercalate ", "
        (kvs.attach.map (fun kv => pyReprStr kv.1.1 ++ ": " ++ pyRepr kv.1.2)) ++ "\x7d"
decreasing_by
  · have := List.sizeOf_lt_of_mem x.2
    simp at this ⊢
    omega
  · obtain ⟨⟨k, v⟩, hmem⟩ := kv
    have := List.sizeOf_lt_of_mem hmem
    simp at this ⊢
    omega

/-- Python `repr` of an arguments dict (used in f-strings). -/
def pyReprDict (d : PyDict) : String := pyRepr (PyVal.dict d)

/-! ## Environments

`json.loads`, the tool registry and the id/timestamp generators are
dependencies of the code under verification; they are supplied as
environment functions.  `msgId`, `isoTime` and `unixTime` model
`generate_message_id` / `get_iso8601_timestamp` / `get_unix_timestamp`,
indexed by a counter threaded through each operation. -/

structure GenEnv where
  jloads : String → Option PyDict
  msgId : Nat → String
  isoTime : Nat → String
  unixTime : Nat → Int

/-- `json.loads(func["arguments"])` with `{}` on decode failure. -/
def decodeArgs (g : GenEnv) (s : String) : PyDict := (g.jloads s).getD []

/-- One provider round trip: a normalized response dict, a `ClientError`
(4xx) or any other exception. -/
inductive ProviderResult where
  | ok (content : Option String) (tool_calls : Option (List ToolCall))
      (providerName : Option String) (model : Option String)
  | clientError (msg : String)
  | exn (msg : String)

/-- Observable side effects of a loop run: provider round trips and
actual tool executions (`await tool.execute(tool_args)`). -/
inductive LoopEvent where
  | providerCall
  | toolExec (name : String) (args : PyDict)
deriving Repr

/-- Environment of `run_agent_loop`: generators, the tool registry
(`tools_map`, with each tool's `execute` as a function of the decoded
arguments), the permission configuration, the per-chat auto-approve
latch (`auto_approve_fn`), the interruption poll
(`check_interrupted_fn`, indexed by iteration) and the provider
(indexed by the number of provider calls made so far). -/
structure LoopEnv where
  gen : GenEnv
  tools_map : String → Option (PyDict → String)
  allowPatterns : List String
  autoApprove : Bool
  interrupted : Nat → Bool
  provider : Nat → ProviderResult

/-- The `LoopResult` dataclass of `loop.py`. -/
structure LoopResult where
  status : String
  new_messages : List Message
  tool_name : Option String := Option.none
  error : Option String := Option.none

/-- Mutable state of one `run_agent_loop` invocation: the (shared,
mutated in place) message list, the messages appended during this
invocation, the generator counter, the number of provider calls, the
iteration count and the event trace. -/
structure LoopState where
  messages : List Message
  newMessages : List Message
  ctr : Nat
  pcalls : Nat
  iters : Nat
  trace : List LoopEvent

/-! ## Locating unhandled tool calls

Shared by `_run_tool_calls` (`loop.py`) and `backfill_tool_results`
(`storage/util.py` and `agent/utils/message_utils.py`), which contain
the same backward scan. -/

/-- Python truthiness of `m.tool_calls` (non-`None` and nonempty). -/
def hasToolCalls (m : Message) : Bool :=
  match m.tool_calls with
  | some (_ :: _) => true
  | _ => false

/-- `m.role == "assistant" and m.tool_calls`. -/
def isAWTC (m : Message) : Bool := m.role == "assistant" && hasToolCalls m

/-- The backward scan for the last assistant message with tool calls,
returning its index and the message. -/
def lastAssistantPos : List Message → Option (Nat × Message)
  | [] => Option.none
  | m :: ms =>
    match lastAssistantPos ms with
    | some (i, a) => some (i + 1, a)
    | Option.none => if isAWTC m then some (0, m) else Option.none

/-- Contribution of one message to `existing_tool_ids`
(`if m.role == "tool" and m.tool_call_id`; an empty id is falsy). -/
def toolRespId (m : Message) : Option String :=
  if m.role == "tool" then
    match m.tool_call_id with
    | some s => if s.isEmpty then Option.none else some s
    | Option.none => Option.none
  else Option.none

/-- The `existing_tool_ids` set collected after the last assistant. -/
def existingToolIds (ms : List Message) : List String := ms.filterMap toolRespId

/-- The unhandled tool calls of an assistant message, given the
messages that follow it. -/
def unhandledOf (la : Message) (tail : List Message) : List ToolCall :=
  (la.tool_calls.getD []).filter (fun tc => !((existingToolIds tail).contains tc.id))

/-- The unhandled tool calls of the last assistant-with-tool-calls
message of a message list (empty when there is no such message). -/
def unhandledToolCalls (messages : List Message) : List ToolCall :=
  match lastAssistantPos messages with
  | some (i, la) => unhandledOf la (messages.drop (i + 1))
  | Option.none => []

/-- `tc.get("status") == "pending"`. -/
def isPendingTC (tc : ToolCall) : Bool :=
  match tc.status with
  | some TCStatus.pending => true
  | _ => false

/-- `tc.get("status") == "rejected"`. -/
def isRejectedTC (tc : ToolCall) : Bool :=
  match tc.status with
  | some TCStatus.rejected => true
  | _ => false

/-- `tc.get("status", "approved")`. -/
def effStatus (tc : ToolCall) : TCStatus := tc.status.getD TCStatus.approved

/-- `next((tc for tc in unhandled if tc.get("status") == "pending"), None)`. -/
def firstPending (tcs : List ToolCall) : Option ToolCall := tcs.find? isPendingTC

/-! ## The execute-unhandled sub-routine (`_run_tool_calls`) -/

/-- The 10,000-character truncation with the fixed suffix, applied by
the agent loop before persisting a tool result. -/
def truncateResult (s : String) : String :=
  if strLen s > 10000 then String.mk (s.data.take 10000) ++ "\n... (truncated)" else s

/-- The fixed denial string for a rejected tool call. -/
def denialString (name : String) (args : PyDict) : String :=
  "ERROR: User denied execution of " ++ name ++ " with args " ++ pyReprDict args ++
    ". The command was NOT executed. Do NOT proceed as if it succeeded."

/-- The fixed cancellation string produced by `backfill_tool_results`. -/
def cancelString (name : String) : String :=
  "ERROR: Execution of " ++ name ++ " was cancelled due to interruption. " ++
    "The command was NOT executed."

/-- The tool message dict passed to `Message.from_dict` by both
`_run_tool_calls` and `backfill_tool_results`. -/
def mkToolMessage (g : GenEnv) (n : Nat) (parent : Option String) (name : String)
    (args : PyDict) (tcid : String) (content : String) : Message :=
  { role := "tool", content := MContent.str content,
    timestamp := g.isoTime n, unix_timestamp := g.unixTime n,
    id := some (g.msgId n), parent_id := parent,
    tool := some name, arguments := some args, tool_call_id := some tcid }

/-- One round of the `for tc in unhandled` loop of `_run_tool_calls`:
a rejected call yields the fixed denial string without touching the
tool; otherwise the tool is executed (or the `Unknown tool` string is
produced); the result is truncated and appended as a tool message. -/
def execOne (env : LoopEnv) (la : Message) (st : LoopState) (tc : ToolCall) : LoopState :=
  let tool_args := decodeArgs env.gen tc.fargs
  let step :=
    if effStatus tc = TCStatus.rejected then
      (denialString tc.fname tool_args, st.trace)
    else
      match env.tools_map tc.fname with
      | some ex => (ex tool_args, st.trace ++ [LoopEvent.toolExec tc.fname tool_args])
      | Option.none => ("Unknown tool: " ++ tc.fname, st.trace)
  let msg := mkToolMessage env.gen st.ctr la.id tc.fname tool_args tc.id (truncateResult step.1)
  { messages := st.messages ++ [msg], newMessages := st.newMessages ++ [msg],
    ctr := st.ctr + 1, pcalls := st.pcalls, iters := st.iters, trace := step.2 }

/-- `_run_tool_calls`: find the last assistant with tool calls, compute
the unhandled set, exit with `approval_needed` when any unhandled call
is pending, otherwise execute the unhandled calls in order. -/
def runToolCalls (env : LoopEnv) (st : LoopState) : LoopState × Option LoopResult :=
  match lastAssistantPos st.messages with
  | Option.none => (st, Option.none)
  | some (i, la) =>
    let unhandled := unhandledOf la (st.messages.drop (i + 1))
    if unhandled.isEmpty then (st, Option.none)
    else
      match firstPending unhandled with
      | some tc =>
        (st, some { status := "approval_needed", new_messages := st.newMessages,
                    tool_name := some tc.fname })
      | Option.none => (unhandled.foldl (execOne env la) st, Option.none)

/-! ## The status annotation pass and the main loop (`run_agent_loop`) -/

/-- `tc["status"] = ...`. -/
def setStatus (s : TCStatus) (tc : ToolCall) : ToolCall := { tc with status := some s }

/-- The blocking condition of the annotation pass: a known tool that is
neither auto-approved nor allowed by the permission manager. -/
def blockedTC (env : LoopEnv) (tc : ToolCall) : Bool :=
  let tool_args := decodeArgs env.gen tc.fargs
  (env.tools_map tc.fname).isSome && !env.autoApprove &&
    !(is_allowed env.allowPatterns tc.fname tool_args)

/-- The `for tc_index, tc in enumerate(tool_calls)` pass of
`run_agent_loop`: approve until the first blocking call, then mark it
and every remaining call pending and stop. -/
def annotateToolCalls (env : LoopEnv) : List ToolCall → List ToolCall
  | [] => []
  | tc :: rest =>
    if blockedTC env tc then (tc :: rest).map (setStatus TCStatus.pending)
    else setStatus TCStatus.approved tc :: annotateToolCalls env rest

/-- `messages[-1].id if messages and messages[-1].id else None`. -/
def lastMsgParentId (msgs : List Message) : Option String :=
  match msgs.getLast? with
  | some m =>
    match m.id with
    | some s => if s.isEmpty then Option.none else some s
    | Option.none => Option.none
  | Option.none => Option.none

/-- The assistant message dict built by the main loop. -/
def mkAssistantMessage (g : GenEnv) (n : Nat) (parent : Option String) (content : String)
    (pname model : Option String) (tcs : Option (List ToolCall)) : Message :=
  { role := "assistant", content := MContent.str content, timestamp := g.isoTime n,
    unix_timestamp := g.unixTime n, id := some (g.msgId n), parent_id := parent,
    provider := pname, model := model, tool_calls := tcs }

/-- The synthetic assistant message carrying an error text. -/
def mkErrorAssistant (g : GenEnv) (n : Nat) (parent : Option String) (content : String) : Message :=
  { role := "assistant", content := MContent.str content, timestamp := g.isoTime n,
    unix_timestamp := g.unixTime n, id := some (g.msgId n), parent_id := parent }

/-- Append one message (`message_callback` + the two list appends). -/
def appendMsg (st : LoopState) (m : Message) : LoopState :=
  { st with
    messages := st.messages ++ [m],
    newMessages := st.newMessages ++ [m],
    ctr := st.ctr + 1 }

/-- The `for _ in range(max_iterations)` body of `run_agent_loop`:
check the interruption flag, call the provider, and either finish
(`completed` / `error`), pause (`approval_needed`), or iterate. -/
def loopIter (env : LoopEnv) : Nat → LoopState → LoopResult × LoopState
  | 0, st => ({ status := "max_iterations", new_messages := st.newMessages }, st)
  | fuel + 1, st =>
    if env.interrupted st.iters then
      ({ status := "interrupted", new_messages := st.newMessages }, st)
    else
      match env.provider st.pcalls with
      | ProviderResult.clientError e =>
        let st1 := { st with trace := st.trace ++ [LoopEvent.providerCall],
                             pcalls := st.pcalls + 1 }
        let st2 := appendMsg st1 (mkErrorAssistant env.gen st1.ctr (lastMsgParentId st1.messages)
          ("[agent] API client error (not retrying): " ++ e))
        ({ status := "error", new_messages := st2.newMessages, error := some e }, st2)
      | ProviderResult.exn e =>
        let st1 := { st with trace := st.trace ++ [LoopEvent.providerCall],
                             pcalls := st.pcalls + 1 }
        let st2 := appendMsg st1 (mkErrorAssistant env.gen st1.ctr (lastMsgParentId st1.messages)
          ("[agent] Unexpected error: " ++ e))
        ({ status := "error", new_messages := st2.newMessages, error := some e }, st2)
      | ProviderResult.ok content toolCalls pname model =>
        let st1 := { st with trace := st.trace ++ [LoopEvent.providerCall],
                             pcalls := st.pcalls + 1 }
        let parent := lastMsgParentId st1.messages
        let tcs := toolCalls.getD []
        if tcs.isEmpty then
          let st2 := appendMsg st1
            (mkAssistantMessage env.gen st1.ctr parent (content.getD "") pname model Option.none)
          ({ status := "completed", new_messages := st2.newMessages }, st2)
        else
          let annotated := annotateToolCalls env tcs
          let st2 := appendMsg st1
            (mkAssistantMessage env.gen st1.ctr parent (content.getD "") pname model (some annotated))
          match runToolCalls env st2 with
          | (st3, some r) => (r, st3)
          | (st3, Option.none) => loopIter env fuel { st3 with iters := st3.iters + 1 }

/-- `run_agent_loop`: the resume phase (`_run_tool_calls` before any
provider call) followed by the main iteration.  Returns the
`LoopResult` and the final state (message list, trace). -/
def run_agent_loop (env : LoopEnv) (messages : List Message) (maxIterations : Nat) :
    LoopResult × LoopState :=
  match runToolCalls env
      { messages := messages, newMessages := [], ctr := 0, pcalls := 0, iters := 0, trace := [] } with
  | (st, some r) => (r, st)
  | (st, Option.none) => loopIter env maxIterations st

/-! ## `backfill_tool_results`

(`src/storage/src/storage/util.py`, lines 59-131; the copy in
`src/agent/src/agent/utils/message_utils.py` is identical.) -/

def isToolRole (m : Message) : Bool := m.role == "tool"

/-- The in-place `tc["status"] = "cancelled"` mutations of the
cancelled mode, applied to the assistant's tool-call list: exactly the
unhandled calls (those whose id has no matching tool response) are
marked cancelled. -/
def cancelToolCalls (existing : List String) (tcs : List ToolCall) : List ToolCall :=
  tcs.map (fun tc =>
    if !(existing.contains tc.id) then { tc with status := some TCStatus.cancelled } else tc)

/-- The `for tc in unhandled` loop of `backfill_tool_results`, building
the synthetic tool messages (counter `n` indexes the generators). -/
def mkBackfillMsgs (g : GenEnv) (la : Message) (mode : String) :
    Nat → List ToolCall → List Message
  | _, [] => []
  | n, tc :: rest =>
    let tool_args := decodeArgs g tc.fargs
    let content :=
      if mode == "rejected" then denialString tc.fname tool_args else cancelString tc.fname
    mkToolMessage g n la.id tc.fname tool_args tc.id content ::
      mkBackfillMsgs g la mode (n + 1) rest

/-- `backfill_tool_results(messages, mode)`: find the last assistant
with tool calls, compute the unhandled set (restricted to rejected
calls in `"rejected"` mode), mark statuses cancelled in cancelled mode,
and insert the synthetic tool messages immediately after the existing
tool responses of that assistant.  Returns the updated list and the
inserted messages. -/
def backfill_tool_results (g : GenEnv) (messages : List Message) (mode : String) :
    List Message × List Message :=
  match lastAssistantPos messages with
  | Option.none => (messages, [])
  | some (i, la) =>
    let tail := messages.drop (i + 1)
    let unhandled0 := unhandledOf la tail
    let unhandled := if mode == "rejected" then unhandled0.filter isRejectedTC else unhandled0
    if unhandled.isEmpty then (messages, [])
    else
      let toolMsgs := mkBackfillMsgs g la mode 0 unhandled
      let messages1 :=
        if mode == "rejected" then messages
        else messages.set i
          { la with tool_calls := (la.tool_calls).map (cancelToolCalls (existingToolIds tail)) }
      let insertIdx := i + 1 + (tail.takeWhile isToolRole).length
      (messages1.take insertIdx ++ toolMsgs ++ messages1.drop insertIdx, toolMsgs)

/-! ## Serialization (`Message.to_dict` / `from_dict`,
`Chat.to_dict` / `from_dict` of `dto.py`)

The dicts produced by `to_dict` are `PyDict`s in the key insertion
order of the source.  `from_dict` is partial in Python (missing
required keys raise `KeyError`), so it returns an `Option` here;
values of unexpected types — which Python would store as-is or crash
on later — are outside the model and also map to `Option.none`. -/

/-- An optional dict entry (`if x is not None: result[k] = x`). -/
def optField (k : String) (v : Option PyVal) : PyDict :=
  match v with
  | some x => [(k, x)]
  | Option.none => []

def statusToStr : TCStatus → String
  | TCStatus.pending => "pending"
  | TCStatus.approved => "approved"
  | TCStatus.rejected => "rejected"
  | TCStatus.cancelled => "cancelled"

def parseStatus (s : String) : Option TCStatus :=
  if s == "pending" then some TCStatus.pending
  else if s == "approved" then some TCStatus.approved
  else if s == "rejected" then some TCStatus.rejected
  else if s == "cancelled" then some TCStatus.cancelled
  else Option.none

/-- The wire dict of a ToolCall (`{id, function: {name, arguments}}`
plus `status` once annotated); it is stored in messages as-is. -/
def encodeToolCall (tc : ToolCall) : PyVal :=
  PyVal.dict
    ([("id", PyVal.str tc.id),
      ("function", PyVal.dict [("name", PyVal.str tc.fname), ("arguments", PyVal.str tc.fargs)])] ++
      optField "status" (tc.status.map (fun s => PyVal.str (statusToStr s))))

def parseToolCall : PyVal → Option ToolCall
  | PyVal.dict d =>
    match dictGet d "id", dictGet d "function" with
    | some (PyVal.str i), some (PyVal.dict f) =>
      match dictGet f "name", dictGet f "arguments" with
      | some (PyVal.str nm), some (PyVal.str ar) =>
        match dictGet d "status" with
        | Option.none => some { id := i, fname := nm, fargs := ar, status := Option.none }
        | some (PyVal.str st) =>
          (parseStatus st).map (fun s => { id := i, fname := nm, fargs := ar, status := some s })
        | some _ => Option.none
      | _, _ => Option.none
    | _, _ => Option.none
  | _ => Option.none

/-- `{'type': part.type, 'text': part.text}`. -/
def encodePart (p : ContentPart) : PyVal :=
  PyVal.dict [("type", PyVal.str p.type), ("text", PyVal.str p.text)]

/-- `ContentPart(**part)`: requires a string `text`, `type` defaults to
`"text"`. -/
def parsePart : PyVal → Option ContentPart
  | PyVal.dict d =>
    match dictGet d "text" with
    | some (PyVal.str t) =>
      match dictGet d "type" with
      | some (PyVal.str ty) => some { text := t, type := ty }
      | Option.none => some { text := t, type := "text" }
      | some _ => Option.none
    | _ => Option.none
  | _ => Option.none

def encodeContent : MContent → PyVal
  | MContent.str s => PyVal.str s
  | MContent.parts ps => PyVal.list (ps.map encodePart)

def parseContent : PyVal → Option MContent
  | PyVal.str s => some (MContent.str s)
  | PyVal.list xs => (xs.mapM parsePart).map MContent.parts
  | _ => Option.none

def asStr : PyVal → Option String
  | PyVal.str s => some s
  | _ => Option.none

/-- `data.get(k)` for an optional string field. -/
def parseOptStr (d : PyDict) (k : String) : Option (Option String) :=
  match dictGet d k with
  | Option.none => some Option.none
  | some v => (asStr v).map some

/-- `data.get(k)` for an optional list-of-strings field. -/
def parseOptStrList (d : PyDict) (k : String) : Option (Option (List String)) :=
  match dictGet d k with
  | Option.none => some Option.none
  | some (PyVal.list xs) => (xs.mapM asStr).map some
  | some _ => Option.none

def Message.to_dict (m : Message) : PyDict :=
  [("role", PyVal.str m.role), ("content", encodeContent m.content),
   ("timestamp", PyVal.str m.timestamp), ("unix_timestamp", PyVal.int m.unix_timestamp)] ++
  optField "reasoning_content" (m.reasoning_content.map PyVal.str) ++
  optField "reasoning_effort" (m.reasoning_effort.map PyVal.str) ++
  optField "id" (m.id.map PyVal.str) ++
  optField "parent_id" (m.parent_id.map PyVal.str) ++
  optField "links" (m.links.map (fun l => PyVal.list (l.map PyVal.str))) ++
  optField "images" (m.images.map (fun l => PyVal.list (l.map PyVal.str))) ++
  optField "model" (m.model.map PyVal.str) ++
  optField "provider" (m.provider.map PyVal.str) ++
  optField "server" (m.server.map PyVal.str) ++
  optField "tool" (m.tool.map PyVal.str) ++
  optField "arguments" (m.arguments.map PyVal.dict) ++
  optField "tool_calls" (m.tool_calls.map (fun tcs => PyVal.list (tcs.map encodeToolCall))) ++
  optField "tool_call_id" (m.tool_call_id.map PyVal.str)

/-- `data.get('unix_timestamp')` followed by `int(...)`.  When the key
is absent Python derives the value from `timestamp` via `strptime`;
`to_dict` always writes the key, so that fallback is not modelled. -/
def parseUnix (d : PyDict) : Option Int :=
  match dictGet d "unix_timestamp" with
  | some (PyVal.int n) => some n
  | _ => Option.none

/-- `data.get('arguments')` (a dict when present). -/
def parseOptArgs (d : PyDict) : Option (Option PyDict) :=
  match dictGet d "arguments" with
  | Option.none => some Option.none
  | some (PyVal.dict a) => some (some a)
  | some _ => Option.none

/-- `data.get('tool_calls')` (a list of tool-call dicts when present). -/
def parseOptToolCalls (d : PyDict) : Option (Option (List ToolCall)) :=
  match dictGet d "tool_calls" with
  | Option.none => some Option.none
  | some (PyVal.list xs) => (xs.mapM parseToolCall).map some
  | some _ => Option.none

/-- The four required `Message` fields (`KeyError` on absence in
Python, hence `Option`). -/
structure MsgReq where
  role : String
  content : MContent
  timestamp : String
  unix_timestamp : Int

/-- The first half of the optional `Message` fields. -/
structure MsgOptA where
  reasoning_content : Option String
  reasoning_effort : Option String
  links : Option (List String)
  images : Option (List String)
  model : Option String
  provider : Option String

/-- The second half of the optional `Message` fields. -/
structure MsgOptB where
  id : Option String
  parent_id : Option String
  server : Option String
  tool : Option String
  arguments : Option PyDict
  tool_calls : Option (List ToolCall)
  tool_call_id : Option String

def parseMsgReq (d : PyDict) : Option MsgReq := do
  let role ← (dictGet d "role").bind asStr
  let content ← (dictGet d "content").bind parseContent
  let tstamp ← (dictGet d "timestamp").bind asStr
  let unix ← parseUnix d
  pure { role := role, content := content, timestamp := tstamp, unix_timestamp := unix }

def parseMsgOptA (d : PyDict) : Option MsgOptA := do
  let rc ← parseOptStr d "reasoning_content"
  let re ← parseOptStr d "reasoning_effort"
  let links ← parseOptStrList d "links"
  let images ← parseOptStrList d "images"
  let model ← parseOptStr d "model"
  let prov ← parseOptStr d "provider"
  pure { reasoning_content := rc, reasoning_effort := re, links := links, images := images,
         model := model, provider := prov }

def parseMsgOptB (d : PyDict) : Option MsgOptB := do
  let mid ← parseOptStr d "id"
  let pid ← parseOptStr d "parent_id"
  let server ← parseOptStr d "server"
  let tool ← parseOptStr d "tool"
  let args ← parseOptArgs d
  let tcs ← parseOptToolCalls d
  let tcid ← parseOptStr d "tool_call_id"
  pure { id := mid, parent_id := pid, server := server, tool := tool, arguments := args,
         tool_calls := tcs, tool_call_id := tcid }

/-- `Message.from_dict` (the field reads are grouped, but each group
reads exactly the `data.get` of the source). -/
def Message.from_dict (d : PyDict) : Option Message := do
  let q ← parseMsgReq d
  let a ← parseMsgOptA d
  let b ← parseMsgOptB d
  pure { role := q.role, content := q.content, timestamp := q.timestamp,
         unix_timestamp := q.unix_timestamp,
         reasoning_content := a.reasoning_content, reasoning_effort := a.reasoning_effort,
         links := a.links, images := a.images, model := a.model, provider := a.provider,
         id := b.id, parent_id := b.parent_id, server := b.server, tool := b.tool,
         arguments := b.arguments, tool_calls := b.tool_calls, tool_call_id := b.tool_call_id }

/-- Stable insertion of a message after all messages with a key not
greater than its own. -/
def insertByUnix (m : Message) : List Message → List Message
  | [] => [m]
  | x :: xs =>
    if x.unix_timestamp ≤ m.unix_timestamp then x :: insertByUnix m xs else m :: x :: xs

/-- `sorted(messages, key=lambda x: x.unix_timestamp)` — Python's sort
is stable, and any stable sort on the same key computes the same
function; insertion into the accumulator after equal keys is stable. -/
def sortByUnix (l : List Message) : List Message :=
  l.foldl (fun acc m => insertByUnix m acc) []

/-- The `[Message.from_dict(m) for m in data['messages'] if m['role'] != 'system']`
comprehension: each element must be a dict with a `role` key; system
messages are dropped before parsing. -/
def parseChatMessages : List PyVal → Option (List Message)
  | [] => some []
  | x :: rest =>
    match x with
    | PyVal.dict dm => do
      let r ← (dictGet dm "role").bind asStr
      let tl ← parseChatMessages rest
      if r == "system" then pure tl
      else do
        let m ← Message.from_dict dm
        pure (m :: tl)
    | _ => Option.none

def Chat.to_dict (c : Chat) : PyDict :=
  [("create_time", PyVal.str c.create_time), ("id", PyVal.str c.id),
   ("update_time", PyVal.str c.update_time),
   ("messages", PyVal.list (c.messages.map (fun m => PyVal.dict (Message.to_dict m))))] ++
  optField "external_id" (c.external_id.map PyVal.str) ++
  optField "content_hash" (c.content_hash.map PyVal.str) ++
  optField "origin_chat_id" (c.origin_chat_id.map PyVal.str) ++
  optField "origin_message_id" (c.origin_message_id.map PyVal.str) ++
  (if c.auto_approve then [("auto_approve", PyVal.bool true)] else []) ++
  (if c.interrupted then [("interrupted", PyVal.bool true)] else [])

/-- `data.get('origin_message_id') or data.get('selected_message_id')`:
Python `or` keeps the left value when truthy (a nonempty string),
otherwise returns the right value as-is. -/
def originMessageId (d : PyDict) : Option String :=
  match dictGet d "origin_message_id" with
  | some (PyVal.str s) =>
    if s.isEmpty then
      match dictGet d "selected_message_id" with
      | some (PyVal.str t) => some t
      | _ => Option.none
    else some s
  | _ =>
    match dictGet d "selected_message_id" with
    | some (PyVal.str t) => some t
    | _ => Option.none

/-- The required `Chat` fields. -/
structure ChatReq where
  id : String
  create_time : String
  update_time : String
  messages : List Message

def parseChatReq (d : PyDict) : Option ChatReq := do
  let cid ← (dictGet d "id").bind asStr
  let ct ← (dictGet d "create_time").bind asStr
  let ut ← (dictGet d "update_time").bind asStr
  let msgsRaw ←
    match dictGet d "messages" with
    | some (PyVal.list xs) => some xs
    | _ => Option.none
  let msgs ← parseChatMessages msgsRaw
  pure { id := cid, create_time := ct, update_time := ut, messages := msgs }

/-- The optional string `Chat` fields read with `data.get`. -/
structure ChatOpt where
  external_id : Option String
  content_hash : Option String
  origin_chat_id : Option String

def parseChatOpt (d : PyDict) : Option ChatOpt := do
  let ext ← parseOptStr d "external_id"
  let chash ← parseOptStr d "content_hash"
  let ocid ← parseOptStr d "origin_chat_id"
  pure { external_id := ext, content_hash := chash, origin_chat_id := ocid }

def Chat.from_dict (d : PyDict) : Option Chat := do
  let q ← parseChatReq d
  let o ← parseChatOpt d
  let auto :=
    match dictGet d "auto_approve" with
    | some (PyVal.bool b) => b
    | _ => false
  let intr :=
    match dictGet d "interrupted" with
    | some (PyVal.bool b) => b
    | _ => false
  pure { id := q.id, create_time := q.create_time, update_time := q.update_time,
         messages := sortByUnix q.messages,
         external_id := o.external_id, content_hash := o.content_hash,
         origin_chat_id := o.origin_chat_id, origin_message_id := originMessageId d,
         auto_approve := auto, interrupted := intr }

/-! ## The approval HTTP handlers
(`src/api/src/api/controller/chat.py`)

The chat store is modelled as the list of `(user_id, chat)` rows of the
`chats` table (the `title` column derived on save is not part of the
DTO and is not modelled).  `getChatById` / `saveChatById` are the
unscoped `chat_service.get_chat_by_id` / `chat_repo.save_chat_by_id`
paths, which resolve the row by `chat_id` alone
(`_get_chat_by_id_sync`, `_save_chat_by_id_sync`). -/

structure ChatRow where
  user_id : Int
  chat : Chat

abbrev Store := List ChatRow

/-- `session.query(ChatEntity).filter_by(chat_id=chat_id).first()` —
no `user_id` filter. -/
def getChatById (store : Store) (chat_id : String) : Option Chat :=
  (store.find? (fun r => r.chat.id == chat_id)).map (fun r => r.chat)

/-- Replace the first row whose chat has the given id; `none` models
the `ValueError` when no row matches. -/
def replaceChatRow (chat : Chat) : Store → Option Store
  | [] => Option.none
  | r :: rs =>
    if r.chat.id == chat.id then some ({ r with chat := chat } :: rs)
    else (replaceChatRow chat rs).map (fun s => r :: s)

/-- Environment of a handler invocation: generators for backfill and
user messages plus the `update_time` written by the save. -/
structure ApiEnv where
  gen : GenEnv
  saveIso : String

/-- `_save_chat_by_id_sync`: set `update_time`, then update the first
row with this chat id (again no `user_id` filter). -/
def saveChatById (env : ApiEnv) (store : Store) (chat : Chat) : Option Store :=
  replaceChatRow { chat with update_time := env.saveIso } store

/-- Body of `POST /chat/approve` (`decisions` is the
`{tool_call_id: bool}` map). -/
structure ApproveRequest where
  chat_id : String
  decisions : String → Option Bool
  user_message : Option String

/-- Outcome of a handler: HTTP 404, HTTP 400 with a detail string, or
success with the resulting store, the enqueued chat ids and (for
`auto_approve`) the echoed flag; `serverError` models an uncaught
exception. -/
inductive HandlerResult where
  | notFound
  | badRequest (detail : String)
  | ok (store : Store) (enqueued : List String) (autoApprove : Option Bool)
  | serverError

/-- The `for tc in last_assistant.tool_calls` update of `post_approve`:
only calls currently `pending` whose id appears in the decisions map
change status. -/
def updateDecisions (decisions : String → Option Bool) (tcs : List ToolCall) : List ToolCall :=
  tcs.map (fun tc =>
    match tc.status, decisions tc.id with
    | some TCStatus.pending, some b =>
      { tc with status := some (if b then TCStatus.approved else TCStatus.rejected) }
    | _, _ => tc)

/-- The user message dict built by `post_approve`. -/
def mkUserMessage (g : GenEnv) (n : Nat) (content : String) : Message :=
  { role := "user", content := MContent.str content, timestamp := g.isoTime n,
    unix_timestamp := g.unixTime n, id := some (g.msgId n) }

/-- The message-list pipeline of `post_approve`'s success path: write
the decided statuses into the last assistant message, run
`backfill_tool_results` in rejected mode, then append the optional
(truthy) `user_message`. -/
def approveUpdatedMessages (env : ApiEnv) (chat : Chat) (i : Nat) (la : Message)
    (req : ApproveRequest) : List Message :=
  let tcs1 := updateDecisions req.decisions (la.tool_calls.getD [])
  let messages1 := chat.messages.set i { la with tool_calls := some tcs1 }
  let bf := backfill_tool_results env.gen messages1 "rejected"
  match req.user_message with
  | some s => if s.isEmpty then bf.1 else bf.1 ++ [mkUserMessage env.gen bf.2.length s]
  | Option.none => bf.1

/-- `POST /chat/approve`.  `userId` is the authenticated user id set by
the auth middleware; the handler signature in the source takes no
`Request` parameter at all, so the body never reads it — it is an
explicit argument here to make that observable. -/
def post_approve (env : ApiEnv) (userId : Int) (store : Store) (req : ApproveRequest) :
    HandlerResult :=
  match getChatById store req.chat_id with
  | Option.none => HandlerResult.notFound
  | some chat =>
    match lastAssistantPos chat.messages with
    | Option.none => HandlerResult.badRequest "no tool calls to approve"
    | some (i, la) =>
      if !((la.tool_calls.getD []).any isPendingTC) then
        HandlerResult.badRequest "no pending tool calls"
      else
        match saveChatById env store
            { chat with messages := approveUpdatedMessages env chat i la req } with
        | some store1 =>
          HandlerResult.ok store1
            (if (updateDecisions req.decisions (la.tool_calls.getD [])).any isPendingTC
             then [] else [req.chat_id]) Option.none
        | Option.none => HandlerResult.serverError

/-- The precondition of `post_approve` on a loaded chat: the last
assistant message with tool calls exists and has a pending call. -/
def approvable (chat : Chat) : Bool :=
  match lastAssistantPos chat.messages with
  | some p => (p.2.tool_calls.getD []).any isPendingTC
  | Option.none => false

/-- `POST /chat/stop`: set the `interrupted` flag and save; no user
scoping (see `post_approve` about `userId`). -/
def post_stop (env : ApiEnv) (userId : Int) (store : Store) (chat_id : String) : HandlerResult :=
  match getChatById store chat_id with
  | Option.none => HandlerResult.notFound
  | some chat =>
    match saveChatById env store { chat with interrupted := true } with
    | some store1 => HandlerResult.ok store1 [] Option.none
    | Option.none => HandlerResult.serverError

/-- `POST /chat/auto_approve`: set the per-chat latch and save; no user
scoping (see `post_approve` about `userId`). -/
def post_auto_approve (env : ApiEnv) (userId : Int) (store : Store) (chat_id : String)
    (auto : Bool) : HandlerResult :=
  match getChatById store chat_id with
  | Option.none => HandlerResult.notFound
  | some chat =>
    match saveChatById env store { chat with auto_approve := auto } with
    | some store1 => HandlerResult.ok store1 [] (some auto)
    | Option.none => HandlerResult.serverError

/-! ## Concrete environments for witnesses and counterexamples -/

/-- A concrete generator environment: ids `m0, m1, …`; `jloads` decodes
the empty JSON object (the only argument string the concrete inputs
below use) and fails on everything else, which the code replaces by the
empty dict — the same value Python's `json.loads("{}")` returns. -/
def defaultGen : GenEnv :=
  { jloads := fun s => if s == "\x7b\x7d" then some [] else Option.none,
    msgId := fun n => "m" ++ toString n,
    isoTime := fun n => "iso" ++ toString n,
    unixTime := fun n => Int.ofNat n }

/-- A loop environment with an empty tool registry and no permissions. -/
def defaultLoopEnv : LoopEnv :=
  { gen := defaultGen, tools_map := fun _ => Option.none, allowPatterns := [],
    autoApprove := false, interrupted := fun _ => false,
    provider := fun _ => ProviderResult.exn "no provider" }

def defaultApiEnv : ApiEnv := { gen := defaultGen, saveIso := "savedAt" }

/-- The spec-side reading of one allow-list pattern against a whole
command (C7): strip the command; an empty command has no first token
and matches nothing; otherwise split off the first whitespace-delimited
token and apply the `Bash(...)` pattern forms. -/
def cmdMatchesPattern (pattern cmd : String) : Bool :=
  let c := pyStripList cmd.data
  if c.isEmpty then false
  else bashPatternAdmits pattern (splitFirstToken c).1 (splitFirstToken c).2

/-- The sample permission configuration of the spec's scenario 6. -/
def demoAllow : List String := ["Bash(ls:*)", "Bash(echo)"]

/-! ## General lemmas -/

theorem data_append (a b : String) : (a ++ b).data = a.data ++ b.data := by
  cases a; cases b; rfl

theorem strLen_append (a b : String) : strLen (a ++ b) = strLen a + strLen b := by
  simp [strLen, data_append]

/-- The truncation bound: a truncated result never exceeds 10,000 plus
the length of the fixed suffix. -/
theorem truncateResult_length (s : String) :
    strLen (truncateResult s) ≤ 10000 + strLen "\n... (truncated)" := by
  unfold truncateResult
  split
  · rw [strLen_append]
    have h1 : strLen (String.mk (s.data.take 10000)) ≤ 10000 := by
      simp [strLen]
    omega
  · omega

/-! ## C2: the status annotation pass -/

/-- C2.  When the provider returns tool calls, the annotation pass of
`run_agent_loop` works in a single pass in array order: writing `j` for
the index of the first blocking call (a known tool, not auto-approved,
not allowed by the permission manager; `j = length` when there is
none), every call before `j` is marked `approved` and every call from
`j` on is marked `pending`.  In particular unknown tools are approved,
and a call is approved whenever the auto-approve latch is true or the
permission manager allows it (second conjunct: the blocking condition
fails exactly then). -/
theorem claim2_annotation_pass :
    (∀ (env : LoopEnv) (tcs : List ToolCall),
      annotateToolCalls env tcs =
        (tcs.take (tcs.findIdx (blockedTC env))).map (setStatus TCStatus.approved) ++
        (tcs.drop (tcs.findIdx (blockedTC env))).map (setStatus TCStatus.pending)) ∧
    (∀ (env : LoopEnv) (tc : ToolCall),
      blockedTC env tc = false ↔
        ((env.tools_map tc.fname).isSome = false ∨ env.autoApprove = true ∨
          is_allowed env.allowPatterns tc.fname (decodeArgs env.gen tc.fargs) = true)) := by
  constructor
  · intro env tcs
    induction tcs with
    | nil => simp [annotateToolCalls]
    | cons tc rest ih =>
      by_cases h : blockedTC env tc
      · simp [annotateToolCalls, h, List.findIdx_cons]
      · simp [annotateToolCalls, h, List.findIdx_cons, ih]
  · intro env tc
    unfold blockedTC
    cases h1 : (env.tools_map tc.fname).isSome <;>
      cases h2 : env.autoApprove <;>
        cases h3 : is_allowed env.allowPatterns tc.fname (decodeArgs env.gen tc.fargs) <;>
          simp [h1, h2, h3]

/-! ## C7: the permission evaluator -/

/-- C7.  `is_allowed` returns true unconditionally for the fixed
always-allowed tools; for `bash` it evaluates the allow list against
the command (true exactly when some pattern admits the command, with
glob matching of the first whitespace-split token against the program
pattern and of the remainder against the arguments pattern); every
other tool is denied; and the four concrete examples of the spec's
scenario 6 hold. -/
theorem claim7_permission_evaluator :
    (∀ (pats : List String) (args : PyDict),
      is_allowed pats "file_read" args = true ∧
      is_allowed pats "file_write" args = true ∧
      is_allowed pats "file_edit" args = true) ∧
    (∀ (pats : List String) (args : PyDict),
      is_allowed pats "bash" args = check_bash_permission pats (getCommandArg args)) ∧
    (∀ (pats : List String) (cmd : String),
      check_bash_permission pats cmd = true ↔ ∃ p ∈ pats, cmdMatchesPattern p cmd = true) ∧
    (∀ (pats : List String) (name : String) (args : PyDict),
      ¬(name ∈ ALWAYS_ALLOWED) → name ≠ "bash" → is_allowed pats name args = false) ∧
    (is_allowed demoAllow "bash" [("command", PyVal.str "ls -la /")] = true ∧
     is_allowed demoAllow "bash" [("command", PyVal.str "echo hi there")] = true ∧
     is_allowed demoAllow "bash" [("command", PyVal.str "cat /etc/passwd")] = false ∧
     is_allowed demoAllow "file_read" [] = true) := by
  refine ⟨?_, ?_, ?_, ?_, ?_⟩
  · intro pats args
    refine ⟨?_, ?_, ?_⟩ <;> simp [is_allowed, ALWAYS_ALLOWED]
  · intro pats args
    simp [is_allowed, ALWAYS_ALLOWED]
  · intro pats cmd
    unfold check_bash_permission cmdMatchesPattern
    by_cases hc : (pyStripList cmd.data).isEmpty
    · simp [hc]
    · simp [hc, List.any_eq_true]
  · intro pats name args hmem hbash
    unfold is_allowed
    rw [if_neg, if_neg]
    · simp [hbash]
    · simpa using hmem
  · refine ⟨?_, ?_, ?_, ?_⟩ <;> decide

/-- Witness for C7's hypothesis-bearing conjunct: an unknown tool with
no bash name is denied at a concrete input. -/
theorem claim7_witness :
    is_allowed demoAllow "mystery_tool" [] = false :=
  claim7_permission_evaluator.2.2.2.1 demoAllow "mystery_tool" [] (by decide) (by decide)

/-! ## C1: a pending unhandled call suspends the resume phase -/

/-- `_run_tool_calls` returns `approval_needed` without touching the
state whenever some unhandled call of the last assistant message is
pending. -/
theorem runToolCalls_pending (env : LoopEnv) (st : LoopState)
    (h : ∃ tc ∈ unhandledToolCalls st.messages, tc.status = some TCStatus.pending) :
    ∃ nm, runToolCalls env st =
      (st, some { status := "approval_needed", new_messages := st.newMessages,
                  tool_name := some nm }) := by
  obtain ⟨tc, htc, hpend⟩ := h
  unfold unhandledToolCalls at htc
  unfold runToolCalls
  cases hpos : lastAssistantPos st.messages with
  | none => rw [hpos] at htc; simp at htc
  | some p =>
    obtain ⟨i, la⟩ := p
    rw [hpos] at htc
    have htc2 : tc ∈ unhandledOf la (st.messages.drop (i + 1)) := htc
    have hne : (unhandledOf la (st.messages.drop (i + 1))).isEmpty = false := by
      cases hu : unhandledOf la (st.messages.drop (i + 1)) with
      | nil => rw [hu] at htc2; simp at htc2
      | cons a l => simp
    have hfind : (firstPending (unhandledOf la (st.messages.drop (i + 1)))).isSome := by
      unfold firstPending
      exact List.find?_isSome.mpr ⟨tc, htc2, by simp [isPendingTC, hpend]⟩
    obtain ⟨tcp, hfp⟩ := Option.isSome_iff_exists.mp hfind
    refine ⟨tcp.fname, ?_⟩
    simp only [hne, Bool.false_eq_true, if_false, hfp]

/-- C1.  If the last assistant message with tool calls has an unhandled
pending call, `run_agent_loop` returns `approval_needed` at once: the
message list is unchanged, the event trace is empty (no provider call,
no tool execution — in particular no already-approved sibling is
executed) and no message is appended. -/
theorem claim1_pending_suspends (env : LoopEnv) (messages : List Message) (n : Nat)
    (h : ∃ tc ∈ unhandledToolCalls messages, tc.status = some TCStatus.pending) :
    (run_agent_loop env messages n).1.status = "approval_needed" ∧
    (run_agent_loop env messages n).2.messages = messages ∧
    (run_agent_loop env messages n).2.trace = [] ∧
    (run_agent_loop env messages n).1.new_messages = [] := by
  have hrun := runToolCalls_pending env
    { messages := messages, newMessages := [], ctr := 0, pcalls := 0, iters := 0, trace := [] } h
  obtain ⟨nm, hrun⟩ := hrun
  unfold run_agent_loop
  rw [hrun]
  exact ⟨rfl, rfl, rfl, rfl⟩

/-- Witness for C1 at a concrete chat state: one assistant message with
a single pending unhandled call. -/
def w1tc : ToolCall := { id := "a", fname := "t", fargs := "\x7b\x7d", status := some TCStatus.pending }

def w1asst : Message :=
  { role := "assistant", content := MContent.str "", timestamp := "ts", unix_timestamp := 5,
    id := some "A1", tool_calls := some [w1tc] }

theorem claim1_witness :
    (run_agent_loop defaultLoopEnv [w1asst] 50).1.status = "approval_needed" ∧
    (run_agent_loop defaultLoopEnv [w1asst] 50).2.messages = [w1asst] ∧
    (run_agent_loop defaultLoopEnv [w1asst] 50).2.trace = [] ∧
    (run_agent_loop defaultLoopEnv [w1asst] 50).1.new_messages = [] :=
  claim1_pending_suspends defaultLoopEnv [w1asst] 50
    ⟨w1tc, by decide, rfl⟩

/-! ## C3: truncation of persisted tool message contents -/

/-- Character length of a message's plain-string content (the contents
written by the loop and by backfill are always plain strings). -/
def contentLen (m : Message) : Nat :=
  match m.content with
  | MContent.str s => strLen s
  | MContent.parts _ => 0

theorem execOne_mem (env : LoopEnv) (la : Message) (st : LoopState) (tc : ToolCall)
    (m : Message) (h : m ∈ (execOne env la st tc).messages) :
    m ∈ st.messages ∨ contentLen m ≤ 10000 + strLen "\n... (truncated)" := by
  unfold execOne at h
  simp only [List.mem_append, List.mem_singleton] at h
  cases h with
  | inl h => exact Or.inl h
  | inr h =>
    right
    subst h
    exact truncateResult_length _

theorem foldl_execOne_mem (env : LoopEnv) (la : Message) :
    ∀ (l : List ToolCall) (st : LoopState) (m : Message),
      m ∈ (l.foldl (execOne env la) st).messages →
      m ∈ st.messages ∨ contentLen m ≤ 10000 + strLen "\n... (truncated)" := by
  intro l
  induction l with
  | nil => intro st m h; exact Or.inl h
  | cons tc rest ih =>
    intro st m h
    rcases ih (execOne env la st tc) m h with h1 | h1
    · exact execOne_mem env la st tc m h1
    · exact Or.inr h1

/-- C3 (amended).  Every tool message appended by the agent loop's
execute sub-routine has content length at most 10,000 plus the length
of the fixed `"\n... (truncated)"` suffix: any message of the state
after `_run_tool_calls` is either an input message or satisfies the
bound.  (The synthetic messages of `backfill_tool_results` are *not*
truncated — see the counterexample.) -/
theorem claim3_loop_truncation (env : LoopEnv) (st : LoopState) (m : Message)
    (h : m ∈ ((runToolCalls env st).1).messages) :
    m ∈ st.messages ∨ contentLen m ≤ 10000 + strLen "\n... (truncated)" := by
  revert h
  unfold runToolCalls
  cases hpos : lastAssistantPos st.messages with
  | none => intro h; exact Or.inl h
  | some p =>
    obtain ⟨i, la⟩ := p
    simp only
    split
    · intro h; exact Or.inl h
    · split
      · intro h; exact Or.inl h
      · intro h
        exact foldl_execOne_mem env la _ st m h

/-- Witness for C3 (amended): the denial message the loop appends for a
concrete rejected call is within the bound. -/
def w3tc : ToolCall := { id := "a", fname := "t", fargs := "\x7b\x7d", status := some TCStatus.rejected }

def w3asst : Message :=
  { role := "assistant", content := MContent.str "", timestamp := "ts", unix_timestamp := 5,
    id := some "A1", tool_calls := some [w3tc] }

def w3st : LoopState :=
  { messages := [w3asst], newMessages := [], ctr := 0, pcalls := 0, iters := 0, trace := [] }

theorem claim3_witness :
    mkToolMessage defaultGen 0 (some "A1") "t" [] "a" (truncateResult (denialString "t" [])) ∈
        w3st.messages ∨
      contentLen (mkToolMessage defaultGen 0 (some "A1") "t" [] "a"
        (truncateResult (denialString "t" []))) ≤ 10000 + strLen "\n... (truncated)" :=
  claim3_loop_truncation defaultLoopEnv w3st _
    (by
      have : ((runToolCalls defaultLoopEnv w3st).1).messages =
          [w3asst, mkToolMessage defaultGen 0 (some "A1") "t" [] "a"
            (truncateResult (denialString "t" []))] := rfl
      rw [this]
      exact List.mem_cons_of_mem _ (List.mem_singleton.mpr rfl))

/-- The oversized tool name of the C3 counterexample. -/
def bigName : String := String.mk (List.replicate 10017 'a')

def c3tc : ToolCall := { id := "a", fname := bigName, fargs := "\x7b\x7d", status := some TCStatus.rejected }

def c3asst : Message :=
  { role := "assistant", content := MContent.str "", timestamp := "ts", unix_timestamp := 5,
    id := some "A1", tool_calls := some [c3tc] }

/-- C3 counterexample: `backfill_tool_results` does not truncate — for
a rejected unhandled call with a 10,017-character tool name the
inserted synthetic tool message's content exceeds
`10000 + len("\n... (truncated)")`. -/
theorem claim3_counterexample :
    (backfill_tool_results defaultGen [c3asst] "rejected").2 =
      [mkToolMessage defaultGen 0 (some "A1") bigName [] "a" (denialString bigName [])] ∧
    10000 + strLen "\n... (truncated)" <
      contentLen (mkToolMessage defaultGen 0 (some "A1") bigName [] "a"
        (denialString bigName [])) := by
  constructor
  · rfl
  · have h1 : contentLen (mkToolMessage defaultGen 0 (some "A1") bigName [] "a"
        (denialString bigName [])) = strLen (denialString bigName []) := rfl
    rw [h1]
    unfold denialString
    rw [strLen_append, strLen_append, strLen_append, strLen_append]
    have hb : strLen bigName = 10017 := by
      show (List.replicate 10017 'a').length = 10017
      exact List.length_replicate 10017 'a'
    have hs : strLen "\n... (truncated)" = 16 := by decide
    rw [hb, hs]
    omega

/-! ## C4: rejected calls are not executed; cancelled is backfill's job -/

/-- The cancelled-mode synthetic messages all carry the fixed
cancellation string and role `tool`. -/
theorem mkBackfillMsgs_cancelled_mem (g : GenEnv) (la : Message) :
    ∀ (l : List ToolCall) (n : Nat) (m : Message),
      m ∈ mkBackfillMsgs g la "cancelled" n l →
      m.role = "tool" ∧ ∃ nm, m.content = MContent.str (cancelString nm) := by
  intro l
  induction l with
  | nil => intro n m h; simp [mkBackfillMsgs] at h
  | cons tc rest ih =>
    intro n m h
    simp only [mkBackfillMsgs, List.mem_cons] at h
    cases h with
    | inl h =>
      subst h
      exact ⟨rfl, tc.fname, rfl⟩
    | inr h => exact ih (n + 1) m h

/-- C4 (amended).  The execute sub-routine special-cases only
`rejected`: a rejected unhandled call produces the fixed denial string
and leaves the event trace unchanged (the tool is not executed); the
fixed cancellation string is produced by `backfill_tool_results` in
cancelled mode, not by the loop (every message it inserts carries it).
An unhandled `cancelled` call reaching the sub-routine is executed like
an approved one — see the counterexample. -/
theorem claim4_no_rejected_execution :
    (∀ (env : LoopEnv) (la : Message) (st : LoopState) (tc : ToolCall),
      tc.status = some TCStatus.rejected →
        (execOne env la st tc).trace = st.trace ∧
        (execOne env la st tc).messages = st.messages ++
          [mkToolMessage env.gen st.ctr la.id tc.fname (decodeArgs env.gen tc.fargs) tc.id
            (truncateResult (denialString tc.fname (decodeArgs env.gen tc.fargs)))]) ∧
    (∀ (g : GenEnv) (msgs : List Message) (m : Message),
      m ∈ (backfill_tool_results g msgs "cancelled").2 →
      m.role = "tool" ∧ ∃ nm, m.content = MContent.str (cancelString nm)) := by
  constructor
  · intro env la st tc hstatus
    unfold execOne
    simp [effStatus, hstatus]
  · intro g msgs m h
    unfold backfill_tool_results at h
    cases hpos : lastAssistantPos msgs with
    | none => rw [hpos] at h; simp at h
    | some p =>
      obtain ⟨i, la⟩ := p
      rw [hpos] at h
      simp only [show (("cancelled" : String) == "rejected") = false from by decide,
        Bool.false_eq_true, if_false] at h
      by_cases he : (unhandledOf la (List.drop (i + 1) msgs)).isEmpty = true
      · rw [if_pos he] at h
        simp at h
      · rw [if_neg he] at h
        exact mkBackfillMsgs_cancelled_mem g la _ 0 m h

def c4env : LoopEnv :=
  { defaultLoopEnv with tools_map := fun n => if n == "t" then some (fun _ => "RAN") else Option.none }

def c4tc : ToolCall := { id := "a", fname := "t", fargs := "\x7b\x7d", status := some TCStatus.cancelled }

def c4asst : Message :=
  { role := "assistant", content := MContent.str "", timestamp := "ts", unix_timestamp := 5,
    id := some "A1", tool_calls := some [c4tc] }

def c4st : LoopState :=
  { messages := [c4asst], newMessages := [], ctr := 0, pcalls := 0, iters := 0, trace := [] }

/-- C4 counterexample: when the execute sub-routine processes an
unhandled tool call whose status is `cancelled`, it *does* execute the
tool (a `toolExec` event is emitted) and the persisted content is the
tool's result, not the fixed cancellation string. -/
theorem claim4_counterexample :
    ((runToolCalls c4env c4st).1).trace = [LoopEvent.toolExec "t" []] ∧
    (((runToolCalls c4env c4st).1).messages.getLast?).map Message.content =
      some (MContent.str "RAN") ∧
    MContent.str "RAN" ≠ MContent.str (cancelString "t") :=
  ⟨rfl, rfl, by decide⟩

/-- Witness for C4 (amended), instantiating both conjuncts: a concrete
rejected call is not executed, and a concrete cancelled-mode backfill
message carries the cancellation string. -/
theorem claim4_witness :
    ((execOne defaultLoopEnv w3asst w3st w3tc).trace = w3st.trace ∧
      (execOne defaultLoopEnv w3asst w3st w3tc).messages = w3st.messages ++
        [mkToolMessage defaultGen 0 (some "A1") "t"
          (decodeArgs defaultGen "\x7b\x7d") "a"
          (truncateResult (denialString "t" (decodeArgs defaultGen "\x7b\x7d")))]) ∧
    ((mkToolMessage defaultGen 0 (some "A1") "t" [] "a" (cancelString "t")).role = "tool" ∧
      ∃ nm, (mkToolMessage defaultGen 0 (some "A1") "t" [] "a"
        (cancelString "t")).content = MContent.str (cancelString nm)) :=
  ⟨claim4_no_rejected_execution.1 defaultLoopEnv w3asst w3st w3tc rfl,
   claim4_no_rejected_execution.2 defaultGen
     [{ c4asst with tool_calls := some [{ c4tc with status := some TCStatus.approved }] }] _
     (by exact List.mem_singleton.mpr rfl)⟩

/-! ## C6: status monotonicity -/

theorem execOne_msg (env : LoopEnv) (la : Message) (st : LoopState) (tc : ToolCall) :
    ∃ m, (execOne env la st tc).messages = st.messages ++ [m] :=
  ⟨_, rfl⟩

theorem foldl_execOne_prefixed (env : LoopEnv) (la : Message) :
    ∀ (l : List ToolCall) (st : LoopState),
      ∃ suf, ((l.foldl (execOne env la) st).messages = st.messages ++ suf) := by
  intro l
  induction l with
  | nil => intro st; exact ⟨[], (List.append_nil _).symm⟩
  | cons tc rest ih =>
    intro st
    obtain ⟨m, hm⟩ := execOne_msg env la st tc
    obtain ⟨suf, hsuf⟩ := ih (execOne env la st tc)
    refine ⟨m :: suf, ?_⟩
    rw [List.foldl_cons, hsuf, hm, List.append_assoc]
    rfl

theorem runToolCalls_prefixed (env : LoopEnv) (st : LoopState) :
    ∃ suf, ((runToolCalls env st).1).messages = st.messages ++ suf := by
  unfold runToolCalls
  cases hpos : lastAssistantPos st.messages with
  | none => exact ⟨[], (List.append_nil _).symm⟩
  | some p =>
    obtain ⟨i, la⟩ := p
    simp only
    split
    · exact ⟨[], (List.append_nil _).symm⟩
    · split
      · exact ⟨[], (List.append_nil _).symm⟩
      · exact foldl_execOne_prefixed env la _ st

theorem loopIter_prefixed (env : LoopEnv) :
    ∀ (fuel : Nat) (st : LoopState),
      ∃ suf, ((loopIter env fuel st).2).messages = st.messages ++ suf := by
  intro fuel
  induction fuel with
  | zero => intro st; exact ⟨[], (List.append_nil _).symm⟩
  | succ f ih =>
    intro st
    unfold loopIter
    by_cases hint : env.interrupted st.iters = true
    · rw [if_pos hint]
      exact ⟨[], (List.append_nil _).symm⟩
    · rw [if_neg hint]
      cases hprov : env.provider st.pcalls with
      | clientError e => exact ⟨_, rfl⟩
      | exn e => exact ⟨_, rfl⟩
      | ok content toolCalls pname model =>
        simp only
        by_cases htcs : (toolCalls.getD []).isEmpty = true
        · rw [if_pos htcs]
          exact ⟨_, rfl⟩
        · rw [if_neg htcs]
          rcases hrc : runToolCalls env (appendMsg
            { st with trace := st.trace ++ [LoopEvent.providerCall], pcalls := st.pcalls + 1 }
            (mkAssistantMessage env.gen st.ctr
              (lastMsgParentId st.messages) (content.getD "") pname model
              (some (annotateToolCalls env (toolCalls.getD []))))) with ⟨st3, opt⟩
          have h3 : st3.messages = st.messages ++
              ([mkAssistantMessage env.gen st.ctr (lastMsgParentId st.messages)
                (content.getD "") pname model
                (some (annotateToolCalls env (toolCalls.getD [])))] ++ st3.messages.drop
                  (st.messages.length + 1)) := by
            obtain ⟨suf, hsuf⟩ := runToolCalls_prefixed env (appendMsg
              { st with trace := st.trace ++ [LoopEvent.providerCall], pcalls := st.pcalls + 1 }
              (mkAssistantMessage env.gen st.ctr
                (lastMsgParentId st.messages) (content.getD "") pname model
                (some (annotateToolCalls env (toolCalls.getD [])))))
            rw [hrc] at hsuf
            simp only [appendMsg] at hsuf
            rw [hsuf]
            simp
          cases opt with
          | some r => exact ⟨_, h3⟩
          | none =>
            obtain ⟨suf2, hsuf2⟩ := ih { st3 with iters := st3.iters + 1 }
            conv at hsuf2 => rhs; rw [h3, List.append_assoc]
            exact ⟨_, hsuf2⟩

/-- C6.  Status monotonicity across every status-mutating operation:
the approve endpoint's update touches only calls currently pending
(first conjunct: a pending call in the output was already pending at
the same position), the cancelled-mode backfill mutation writes only
`cancelled` (second conjunct, same shape), and the agent loop never
rewrites an existing message — it only appends, so statuses embedded in
the input message list are untouched and `pending` is written only
onto the freshly returned assistant message (third conjunct). -/
theorem claim6_status_monotonicity :
    (∀ (dec : String → Option Bool) (tcs : List ToolCall) (j : Nat) (tc' : ToolCall),
      (updateDecisions dec tcs)[j]? = some tc' → isPendingTC tc' = true →
      ∃ tc, tcs[j]? = some tc ∧ isPendingTC tc = true) ∧
    (∀ (existing : List String) (tcs : List ToolCall) (j : Nat) (tc' : ToolCall),
      (cancelToolCalls existing tcs)[j]? = some tc' → isPendingTC tc' = true →
      ∃ tc, tcs[j]? = some tc ∧ isPendingTC tc = true) ∧
    (∀ (env : LoopEnv) (messages : List Message) (n : Nat),
      ∃ suffix, ((run_agent_loop env messages n).2).messages = messages ++ suffix) := by
  refine ⟨?_, ?_, ?_⟩
  · intro dec tcs j tc' h hp
    rw [updateDecisions, List.getElem?_map] at h
    cases htc : tcs[j]? with
    | none => rw [htc] at h; cases h
    | some tc =>
      rw [htc] at h
      simp only [Option.map_some'] at h
      cases h
      refine ⟨tc, rfl, ?_⟩
      cases hs : tc.status with
      | none => simpa [hs] using hp
      | some s =>
        cases s with
        | pending => simp [isPendingTC, hs]
        | approved => simpa [hs] using hp
        | rejected => simpa [hs] using hp
        | cancelled => simpa [hs] using hp
  · intro existing tcs j tc' h hp
    rw [cancelToolCalls, List.getElem?_map] at h
    cases htc : tcs[j]? with
    | none => rw [htc] at h; cases h
    | some tc =>
      rw [htc] at h
      simp only [Option.map_some'] at h
      by_cases hc : existing.contains tc.id = true
      · rw [show (if !(existing.contains tc.id) then
            { tc with status := some TCStatus.cancelled } else tc) = tc from by
              rw [hc]; rfl] at h
        injection h with h2
        exact ⟨tc, rfl, by rw [h2]; exact hp⟩
      · have hc2 : existing.contains tc.id = false := by
          cases hx : existing.contains tc.id
          · rfl
          · exact absurd hx hc
        rw [show (if !(existing.contains tc.id) then
            { tc with status := some TCStatus.cancelled } else tc) =
            { tc with status := some TCStatus.cancelled } from by
              rw [hc2]; rfl] at h
        injection h with h2
        rw [← h2] at hp
        simp [isPendingTC] at hp
  · intro env messages n
    unfold run_agent_loop
    rcases hrc : runToolCalls env
      { messages := messages, newMessages := [], ctr := 0, pcalls := 0, iters := 0,
        trace := [] } with ⟨st1, opt⟩
    have h1 : st1.messages = messages ++ st1.messages.drop messages.length := by
      obtain ⟨suf, hsuf⟩ := runToolCalls_prefixed env
        { messages := messages, newMessages := [], ctr := 0, pcalls := 0, iters := 0,
          trace := [] }
      rw [hrc] at hsuf
      simp only at hsuf
      rw [hsuf]
      simp
    cases opt with
    | some r => exact ⟨_, h1⟩
    | none =>
      obtain ⟨suf2, hsuf2⟩ := loopIter_prefixed env n st1
      rw [h1, List.append_assoc] at hsuf2
      exact ⟨_, hsuf2⟩

/-- Witness for C6: concrete instantiations of the three conjuncts. -/
theorem claim6_witness :
    (∃ tc, ([w1tc] : List ToolCall)[0]? = some tc ∧ isPendingTC tc = true) ∧
    (∃ tc, ([w1tc] : List ToolCall)[0]? = some tc ∧ isPendingTC tc = true) ∧
    (∃ suffix, ((run_agent_loop defaultLoopEnv [w1asst] 50).2).messages = [w1asst] ++ suffix) :=
  ⟨claim6_status_monotonicity.1 (fun _ => Option.none) [w1tc] 0 w1tc rfl rfl,
   claim6_status_monotonicity.2.1 ["a"] [w1tc] 0 w1tc rfl rfl,
   claim6_status_monotonicity.2.2 defaultLoopEnv [w1asst] 50⟩

/-! ## C10: no user scoping on approve / stop / auto-approve -/

/-- The chat used by the C10 cross-user demonstration: owned by user 1. -/
def c10chat : Chat :=
  { id := "cx", create_time := "c", update_time := "u", messages := [] }

/-- C10.  The three handlers resolve and save the chat by `chat_id`
alone: their outcome is identical for any two authenticated user ids
(first three conjuncts, one per handler), and concretely an
authenticated user 2 can set the `interrupted` flag of a chat owned by
user 1 (last conjunct). -/
theorem claim10_no_user_scoping :
    (∀ (env : ApiEnv) (store : Store) (req : ApproveRequest) (u1 u2 : Int),
      post_approve env u1 store req = post_approve env u2 store req) ∧
    (∀ (env : ApiEnv) (store : Store) (cid : String) (u1 u2 : Int),
      post_stop env u1 store cid = post_stop env u2 store cid) ∧
    (∀ (env : ApiEnv) (store : Store) (cid : String) (a : Bool) (u1 u2 : Int),
      post_auto_approve env u1 store cid a = post_auto_approve env u2 store cid a) ∧
    post_stop defaultApiEnv 2 [{ user_id := 1, chat := c10chat }] "cx" =
      HandlerResult.ok
        [{ user_id := 1,
           chat := { c10chat with interrupted := true, update_time := "savedAt" } }]
        [] Option.none := by
  refine ⟨fun _ _ _ _ _ => rfl, fun _ _ _ _ _ => rfl, fun _ _ _ _ _ _ => rfl, rfl⟩

/-! ## C5: the approve endpoint -/

theorem getChatById_id (store : Store) (cid : String) (chat : Chat)
    (h : getChatById store cid = some chat) : chat.id = cid := by
  unfold getChatById at h
  rw [Option.map_eq_some'] at h
  obtain ⟨row, hfind, hchat⟩ := h
  have := List.find?_some hfind
  rw [← hchat]
  exact eq_of_beq this

theorem replaceChatRow_isSome (cid : String) (chat : Chat) (hc : chat.id = cid) :
    ∀ store : Store, (store.find? (fun r => r.chat.id == cid)).isSome = true →
      (replaceChatRow chat store).isSome = true := by
  intro store
  induction store with
  | nil => intro h; exact Bool.noConfusion h
  | cons r rs ih =>
    intro h
    unfold replaceChatRow
    rw [hc]
    cases hb : (r.chat.id == cid) with
    | true => simp
    | false =>
      rw [List.find?_cons, hb] at h
      simp only [Bool.false_eq_true, if_false]
      have := ih h
      cases hrep : replaceChatRow chat rs with
      | none => rw [hrep] at this; exact Bool.noConfusion this
      | some s2 => simp

theorem saveChatById_isSome (env : ApiEnv) (store : Store) (cid : String) (chat : Chat)
    (hfind : getChatById store cid = some chat) (c2 : Chat) (hid : c2.id = cid) :
    ∃ s', saveChatById env store c2 = some s' := by
  unfold saveChatById
  have h1 : ({ c2 with update_time := env.saveIso } : Chat).id = cid := hid
  have h2 : (store.find? (fun r => r.chat.id == cid)).isSome = true := by
    unfold getChatById at hfind
    rw [Option.map_eq_some'] at hfind
    obtain ⟨row, hfind2, -⟩ := hfind
    rw [hfind2]
    rfl
  have := replaceChatRow_isSome cid _ h1 store h2
  exact Option.isSome_iff_exists.mp this

/-- The exhaustive outcome analysis of `post_approve`: 404 when the
chat id resolves to no row; 400 when it resolves but the precondition
fails; otherwise the decided statuses are written, rejections
backfilled, the optional user message appended, the chat saved, and a
job enqueued exactly when no pending call remains. -/
theorem post_approve_cases (env : ApiEnv) (u : Int) (store : Store) (req : ApproveRequest) :
    (getChatById store req.chat_id = Option.none ∧
      post_approve env u store req = HandlerResult.notFound) ∨
    (∃ chat, getChatById store req.chat_id = some chat ∧ approvable chat = false ∧
      ∃ s, post_approve env u store req = HandlerResult.badRequest s) ∨
    (∃ chat i la store1,
      getChatById store req.chat_id = some chat ∧
      lastAssistantPos chat.messages = some (i, la) ∧
      (la.tool_calls.getD []).any isPendingTC = true ∧
      saveChatById env store
        { chat with messages := approveUpdatedMessages env chat i la req } = some store1 ∧
      post_approve env u store req = HandlerResult.ok store1
        (if (updateDecisions req.decisions (la.tool_calls.getD [])).any isPendingTC
         then [] else [req.chat_id]) Option.none) := by
  cases hget : getChatById store req.chat_id with
  | none =>
    refine Or.inl ⟨rfl, ?_⟩
    unfold post_approve
    rw [hget]
  | some chat =>
    right
    cases hpos : lastAssistantPos chat.messages with
    | none =>
      left
      refine ⟨chat, rfl, by unfold approvable; rw [hpos], "no tool calls to approve", ?_⟩
      unfold post_approve
      rw [hget]
      simp only [hpos]
    | some p =>
      obtain ⟨i, la⟩ := p
      by_cases hany : ((la.tool_calls.getD []).any isPendingTC) = true
      · right
        obtain ⟨store1, hsave⟩ := saveChatById_isSome env store req.chat_id chat hget
          { chat with messages := approveUpdatedMessages env chat i la req }
          (getChatById_id store req.chat_id chat hget)
        refine ⟨chat, i, la, store1, rfl, hpos, hany, hsave, ?_⟩
        unfold post_approve
        rw [hget]
        simp only [hpos, hany, hsave, Bool.not_true, Bool.false_eq_true, if_false]
      · left
        have hany2 : ((la.tool_calls.getD []).any isPendingTC) = false := by
          cases hx : (la.tool_calls.getD []).any isPendingTC
          · rfl
          · exact absurd hx hany
        refine ⟨chat, rfl, by unfold approvable; rw [hpos]; exact hany2,
          "no pending tool calls", ?_⟩
        unfold post_approve
        rw [hget]
        simp only [hpos, hany2, Bool.not_false, if_true]

/-- C5.  `post_approve` fails with 400 exactly when the chat exists but
has no last assistant message with tool calls or none of its calls is
pending (second conjunct; 404 is exactly "chat not found", first
conjunct); on success it writes the decided statuses, backfills the
denial messages, appends the optional user message, saves, and
enqueues a job iff no pending call remains (third conjunct, through
`approveUpdatedMessages`); and the status update maps a pending call
with a decision to approved (true) / rejected (false) and leaves
every other call — including pending calls absent from the map —
unchanged (fourth conjunct). -/
theorem claim5_approve_endpoint :
    (∀ (env : ApiEnv) (u : Int) (store : Store) (req : ApproveRequest),
      post_approve env u store req = HandlerResult.notFound ↔
        getChatById store req.chat_id = Option.none) ∧
    (∀ (env : ApiEnv) (u : Int) (store : Store) (req : ApproveRequest),
      (∃ s, post_approve env u store req = HandlerResult.badRequest s) ↔
        (∃ chat, getChatById store req.chat_id = some chat ∧ approvable chat = false)) ∧
    (∀ (env : ApiEnv) (u : Int) (store : Store) (req : ApproveRequest) (chat : Chat)
        (i : Nat) (la : Message),
      getChatById store req.chat_id = some chat →
      lastAssistantPos chat.messages = some (i, la) →
      (la.tool_calls.getD []).any isPendingTC = true →
      ∃ store1,
        saveChatById env store
          { chat with messages := approveUpdatedMessages env chat i la req } = some store1 ∧
        post_approve env u store req = HandlerResult.ok store1
          (if (updateDecisions req.decisions (la.tool_calls.getD [])).any isPendingTC
           then [] else [req.chat_id]) Option.none) ∧
    (∀ (dec : String → Option Bool) (tcs : List ToolCall) (j : Nat) (tc : ToolCall),
      tcs[j]? = some tc →
      (updateDecisions dec tcs)[j]? = some (
        match tc.status, dec tc.id with
        | some TCStatus.pending, some true => { tc with status := some TCStatus.approved }
        | some TCStatus.pending, some false => { tc with status := some TCStatus.rejected }
        | _, _ => tc)) := by
  refine ⟨?_, ?_, ?_, ?_⟩
  · intro env u store req
    rcases post_approve_cases env u store req with ⟨hget, hpost⟩ |
      ⟨chat, hget, happ, s, hpost⟩ | ⟨chat, i, la, store1, hget, hpos, hany, hsave, hpost⟩
    · rw [hpost, hget]
      simp
    · rw [hpost, hget]
      constructor
      · intro h; exact HandlerResult.noConfusion h
      · intro h; exact Option.noConfusion h
    · rw [hpost, hget]
      constructor
      · intro h; exact HandlerResult.noConfusion h
      · intro h; exact Option.noConfusion h
  · intro env u store req
    rcases post_approve_cases env u store req with ⟨hget, hpost⟩ |
      ⟨chat, hget, happ, s, hpost⟩ | ⟨chat, i, la, store1, hget, hpos, hany, hsave, hpost⟩
    · rw [hpost, hget]
      constructor
      · rintro ⟨s, hs⟩; exact HandlerResult.noConfusion hs
      · rintro ⟨c, hc, -⟩; exact Option.noConfusion hc
    · rw [hpost, hget]
      constructor
      · intro _; exact ⟨chat, rfl, happ⟩
      · intro _; exact ⟨s, rfl⟩
    · rw [hpost, hget]
      constructor
      · rintro ⟨s, hs⟩; exact HandlerResult.noConfusion hs
      · rintro ⟨c, hc, happ2⟩
        exfalso
        injection hc with hc
        subst hc
        unfold approvable at happ2
        rw [hpos] at happ2
        have happ3 : (la.tool_calls.getD []).any isPendingTC = false := happ2
        rw [hany] at happ3
        exact Bool.noConfusion happ3
  · intro env u store req chat i la hget hpos hany
    rcases post_approve_cases env u store req with ⟨hget2, hpost⟩ |
      ⟨chat2, hget2, happ2, s, hpost⟩ | ⟨chat2, i2, la2, store1, hget2, hpos2, hany2, hsave, hpost⟩
    · rw [hget] at hget2; exact Option.noConfusion hget2
    · exfalso
      rw [hget] at hget2
      injection hget2 with hc
      subst hc
      unfold approvable at happ2
      rw [hpos] at happ2
      have happ3 : (la.tool_calls.getD []).any isPendingTC = false := happ2
      rw [hany] at happ3
      exact Bool.noConfusion happ3
    · rw [hget] at hget2
      injection hget2 with hc
      subst hc
      rw [hpos] at hpos2
      injection hpos2 with hpl
      rw [Prod.mk.injEq] at hpl
      obtain ⟨hieq, hlaeq⟩ := hpl
      subst hieq
      subst hlaeq
      exact ⟨store1, hsave, hpost⟩
  · intro dec tcs j tc htc
    rw [updateDecisions, List.getElem?_map, htc]
    simp only [Option.map_some']
    congr 1
    cases hs : tc.status with
    | none => rfl
    | some s =>
      cases s with
      | pending =>
        cases hd : dec tc.id with
        | none => rfl
        | some b => cases b <;> rfl
      | approved => rfl
      | rejected => rfl
      | cancelled => rfl

/-- Witness for C5's success conjunct at a concrete store. -/
def w5chat : Chat :=
  { id := "cp", create_time := "c", update_time := "u", messages := [w1asst] }

def w5req : ApproveRequest :=
  { chat_id := "cp", decisions := fun _ => Option.none, user_message := Option.none }

/-! ## C8: list-structure lemmas for backfill idempotence -/

theorem lastAssistantPos_none_of :
    ∀ (ms : List Message), (∀ m ∈ ms, isAWTC m = false) → lastAssistantPos ms = Option.none := by
  intro ms
  induction ms with
  | nil => intro _; rfl
  | cons m rest ih =>
    intro h
    unfold lastAssistantPos
    rw [ih (fun x hx => h x (List.mem_cons_of_mem m hx))]
    rw [h m (List.mem_cons_self m rest)]
    rfl

theorem lastAssistantPos_none_mem :
    ∀ (ms : List Message), lastAssistantPos ms = Option.none → ∀ m ∈ ms, isAWTC m = false := by
  intro ms
  induction ms with
  | nil => intro _ m hm; cases hm
  | cons a rest ih =>
    intro h m hm
    unfold lastAssistantPos at h
    cases heq : lastAssistantPos rest with
    | some p => rw [heq] at h; cases h
    | none =>
      rw [heq] at h
      cases hA : isAWTC a with
      | true => rw [hA] at h; simp at h
      | false =>
        cases hm with
        | head => exact hA
        | tail _ hm2 => exact ih heq m hm2

theorem lastAssistantPos_append (la : Message) (S : List Message)
    (hla : isAWTC la = true) (hS : ∀ m ∈ S, isAWTC m = false) :
    ∀ A : List Message, lastAssistantPos (A ++ la :: S) = some (A.length, la) := by
  intro A
  induction A with
  | nil =>
    show lastAssistantPos (la :: S) = some (0, la)
    unfold lastAssistantPos
    rw [lastAssistantPos_none_of S hS, hla]
    rfl
  | cons a A' ih =>
    show lastAssistantPos (a :: (A' ++ la :: S)) = some (A'.length + 1, la)
    unfold lastAssistantPos
    rw [ih]

theorem lastAssistantPos_decomp :
    ∀ (ms : List Message) (i : Nat) (la : Message), lastAssistantPos ms = some (i, la) →
      ∃ A S, ms = A ++ la :: S ∧ A.length = i ∧ isAWTC la = true ∧
        ∀ m ∈ S, isAWTC m = false := by
  intro ms
  induction ms with
  | nil => intro i la h; cases h
  | cons m rest ih =>
    intro i la h
    unfold lastAssistantPos at h
    cases heq : lastAssistantPos rest with
    | some p =>
      obtain ⟨j, a⟩ := p
      rw [heq] at h
      injection h with h2
      rw [Prod.mk.injEq] at h2
      obtain ⟨hj, hla⟩ := h2
      subst hj
      subst hla
      obtain ⟨A, S, hms, hlen, hAW, hS⟩ := ih j a heq
      exact ⟨m :: A, S, by rw [hms]; rfl, by simp [hlen], hAW, hS⟩
    | none =>
      rw [heq] at h
      cases hA : isAWTC m with
      | false => rw [hA] at h; simp at h
      | true =>
        rw [hA] at h
        simp only [if_true] at h
        injection h with h2
        rw [Prod.mk.injEq] at h2
        obtain ⟨hj, hla⟩ := h2
        subst hla
        exact ⟨[], rest, rfl, hj, hA, lastAssistantPos_none_mem rest heq⟩

theorem takeWhile_take {α : Type} (p : α → Bool) :
    ∀ l : List α, l.take (l.takeWhile p).length = l.takeWhile p := by
  intro l
  induction l with
  | nil => rfl
  | cons a l ih =>
    cases hp : p a with
    | true => simp [List.takeWhile_cons, hp, ih]
    | false => simp [List.takeWhile_cons, hp]

theorem takeWhile_drop {α : Type} (p : α → Bool) :
    ∀ l : List α, l.drop (l.takeWhile p).length = l.dropWhile p := by
  intro l
  induction l with
  | nil => rfl
  | cons a l ih =>
    cases hp : p a with
    | true => simp [List.takeWhile_cons, List.dropWhile_cons, hp, ih]
    | false => simp [List.takeWhile_cons, List.dropWhile_cons, hp]

theorem mem_of_mem_takeWhile {α : Type} (p : α → Bool) :
    ∀ (l : List α) (x : α), x ∈ l.takeWhile p → x ∈ l := by
  intro l
  induction l with
  | nil => intro x h; cases h
  | cons a l ih =>
    intro x h
    rw [List.takeWhile_cons] at h
    cases hp : p a with
    | true =>
      rw [hp] at h
      simp only [if_true] at h
      cases h with
      | head => exact List.mem_cons_self a l
      | tail _ h2 => exact List.mem_cons_of_mem a (ih x h2)
    | false =>
      rw [hp] at h
      simp at h

theorem mem_of_mem_dropWhile {α : Type} (p : α → Bool) :
    ∀ (l : List α) (x : α), x ∈ l.dropWhile p → x ∈ l := by
  intro l
  induction l with
  | nil => intro x h; cases h
  | cons a l ih =>
    intro x h
    rw [List.dropWhile_cons] at h
    cases hp : p a with
    | true =>
      rw [hp] at h
      simp only [if_true] at h
      exact List.mem_cons_of_mem a (ih x h)
    | false =>
      rw [hp] at h
      simp only [Bool.false_eq_true, if_false] at h
      exact h

theorem take_append_cons {α : Type} (la : α) (S : List α) (k : Nat) :
    ∀ A : List α, (A ++ la :: S).take (A.length + (k + 1)) = A ++ la :: S.take k := by
  intro A
  induction A with
  | nil => simp
  | cons a A' ih =>
    show (a :: (A' ++ la :: S)).take (A'.length + 1 + (k + 1)) = a :: (A' ++ la :: S.take k)
    rw [show A'.length + 1 + (k + 1) = (A'.length + (k + 1)) + 1 from by omega]
    rw [List.take_succ_cons, ih]

theorem drop_append_cons {α : Type} (la : α) (S : List α) (k : Nat) :
    ∀ A : List α, (A ++ la :: S).drop (A.length + (k + 1)) = S.drop k := by
  intro A
  induction A with
  | nil => simp
  | cons a A' ih =>
    show (a :: (A' ++ la :: S)).drop (A'.length + 1 + (k + 1)) = S.drop k
    rw [show A'.length + 1 + (k + 1) = (A'.length + (k + 1)) + 1 from by omega]
    rw [List.drop_succ_cons, ih]

theorem mkBackfillMsgs_role (g : GenEnv) (la : Message) (mode : String) :
    ∀ (l : List ToolCall) (n : Nat) (m : Message),
      m ∈ mkBackfillMsgs g la mode n l → m.role = "tool" := by
  intro l
  induction l with
  | nil => intro n m h; cases h
  | cons tc rest ih =>
    intro n m h
    cases h with
    | head => rfl
    | tail _ h2 => exact ih (n + 1) m h2

theorem isAWTC_of_tool_role (m : Message) (h : m.role = "tool") : isAWTC m = false := by
  unfold isAWTC
  rw [h]
  rfl

theorem mkBackfillMsgs_ids (g : GenEnv) (la : Message) (mode : String) :
    ∀ (l : List ToolCall), (∀ tc ∈ l, tc.id ≠ "") → ∀ n : Nat,
      existingToolIds (mkBackfillMsgs g la mode n l) = l.map (fun tc => tc.id) := by
  intro l
  induction l with
  | nil => intro _ n; rfl
  | cons tc rest ih =>
    intro h n
    have hid : tc.id ≠ "" := h tc (List.mem_cons_self tc rest)
    have hidF : tc.id.isEmpty = false := by
      cases hx : tc.id.isEmpty
      · rfl
      · exact absurd ((String.isEmpty_iff tc.id).mp hx) hid
    show existingToolIds (mkToolMessage g n la.id tc.fname (decodeArgs g tc.fargs) tc.id
      (if mode == "rejected" then denialString tc.fname (decodeArgs g tc.fargs)
       else cancelString tc.fname) :: mkBackfillMsgs g la mode (n + 1) rest) =
      tc.id :: rest.map (fun tc => tc.id)
    unfold existingToolIds
    rw [List.filterMap_cons]
    have hresp : toolRespId (mkToolMessage g n la.id tc.fname (decodeArgs g tc.fargs) tc.id
        (if mode == "rejected" then denialString tc.fname (decodeArgs g tc.fargs)
         else cancelString tc.fname)) = some tc.id := by
      unfold toolRespId mkToolMessage
      simp [hidF]
    rw [hresp]
    have := ih (fun x hx => h x (List.mem_cons_of_mem tc hx)) (n + 1)
    unfold existingToolIds at this
    rw [this]

/-- Closed form of `backfill_tool_results` in rejected mode once the
last assistant with tool calls is located. -/
theorem backfill_rejected_eq (g : GenEnv) (msgs : List Message) (i : Nat) (la : Message)
    (hpos : lastAssistantPos msgs = some (i, la)) :
    backfill_tool_results g msgs "rejected" =
      (if ((unhandledOf la (msgs.drop (i + 1))).filter isRejectedTC).isEmpty then (msgs, [])
       else
        (msgs.take (i + 1 + ((msgs.drop (i + 1)).takeWhile isToolRole).length) ++
          mkBackfillMsgs g la "rejected" 0
            ((unhandledOf la (msgs.drop (i + 1))).filter isRejectedTC) ++
          msgs.drop (i + 1 + ((msgs.drop (i + 1)).takeWhile isToolRole).length),
         mkBackfillMsgs g la "rejected" 0
           ((unhandledOf la (msgs.drop (i + 1))).filter isRejectedTC))) := by
  unfold backfill_tool_results
  simp only [hpos]
  simp only [show (("rejected" : String) == "rejected") = true from rfl, if_true]

/-- C8 (amended).  Rejected-mode backfill is idempotent provided every
tool call of the last assistant-with-tool-calls message has a nonempty
id: a second application inserts nothing and returns the first
application's list unchanged.  (With an empty id the inserted tool
message is not counted as a response — Python truthiness — and the call
is re-backfilled forever; see the counterexample.) -/
theorem claim8_idempotent (g1 g2 : GenEnv) (msgs : List Message)
    (hids : ∀ (i : Nat) (la : Message) (tc : ToolCall), lastAssistantPos msgs = some (i, la) →
      tc ∈ la.tool_calls.getD [] → tc.id ≠ "") :
    backfill_tool_results g2 (backfill_tool_results g1 msgs "rejected").1 "rejected" =
      ((backfill_tool_results g1 msgs "rejected").1, []) := by
  cases hpos : lastAssistantPos msgs with
  | none =>
    have h1 : backfill_tool_results g1 msgs "rejected" = (msgs, []) := by
      unfold backfill_tool_results
      rw [hpos]
    rw [h1]
    unfold backfill_tool_results
    rw [hpos]
  | some p =>
    obtain ⟨i, la⟩ := p
    obtain ⟨A, S0, hms, hlen, hAW, hS⟩ := lastAssistantPos_decomp msgs i la hpos
    have hSdrop : msgs.drop (i + 1) = S0 := by
      have h0 := drop_append_cons la S0 0 A
      rw [← hms] at h0
      rw [show i + 1 = A.length + (0 + 1) from by omega]
      simpa using h0
    cases hemp : ((unhandledOf la S0).filter isRejectedTC).isEmpty with
    | true =>
      have h1 : backfill_tool_results g1 msgs "rejected" = (msgs, []) := by
        rw [backfill_rejected_eq g1 msgs i la hpos, hSdrop, hemp, if_pos rfl]
      rw [h1]
      rw [backfill_rejected_eq g2 msgs i la hpos, hSdrop, hemp, if_pos rfl]
    | false =>
      have hids' : ∀ tc ∈ (unhandledOf la S0).filter isRejectedTC, tc.id ≠ "" := by
        intro tc htc
        rw [List.mem_filter] at htc
        have htc0 := htc.1
        unfold unhandledOf at htc0
        rw [List.mem_filter] at htc0
        exact hids i la tc hpos htc0.1
      have hEins : existingToolIds (mkBackfillMsgs g1 la "rejected" 0
          ((unhandledOf la S0).filter isRejectedTC)) =
          ((unhandledOf la S0).filter isRejectedTC).map (fun tc => tc.id) :=
        mkBackfillMsgs_ids g1 la "rejected" _ hids' 0
      have htake : msgs.take (i + 1 + (S0.takeWhile isToolRole).length) =
          A ++ la :: S0.takeWhile isToolRole := by
        rw [hms, show i + 1 + (S0.takeWhile isToolRole).length =
          A.length + ((S0.takeWhile isToolRole).length + 1) from by omega]
        rw [take_append_cons la S0 (S0.takeWhile isToolRole).length A]
        rw [takeWhile_take]
      have hdropk : msgs.drop (i + 1 + (S0.takeWhile isToolRole).length) =
          S0.dropWhile isToolRole := by
        rw [hms, show i + 1 + (S0.takeWhile isToolRole).length =
          A.length + ((S0.takeWhile isToolRole).length + 1) from by omega]
        rw [drop_append_cons la S0 (S0.takeWhile isToolRole).length A]
        rw [takeWhile_drop]
      have h1 : backfill_tool_results g1 msgs "rejected" =
          (A ++ la :: (S0.takeWhile isToolRole ++
            mkBackfillMsgs g1 la "rejected" 0 ((unhandledOf la S0).filter isRejectedTC) ++
            S0.dropWhile isToolRole),
           mkBackfillMsgs g1 la "rejected" 0 ((unhandledOf la S0).filter isRejectedTC)) := by
        rw [backfill_rejected_eq g1 msgs i la hpos, hSdrop, hemp]
        rw [if_neg (by simp)]
        rw [htake, hdropk]
        simp [List.append_assoc]
      have hS' : ∀ m ∈ S0.takeWhile isToolRole ++
          mkBackfillMsgs g1 la "rejected" 0 ((unhandledOf la S0).filter isRejectedTC) ++
          S0.dropWhile isToolRole, isAWTC m = false := by
        intro m hm
        rw [List.mem_append] at hm
        cases hm with
        | inr hm => exact hS m (mem_of_mem_dropWhile isToolRole S0 m hm)
        | inl hm =>
          rw [List.mem_append] at hm
          cases hm with
          | inl hm => exact hS m (mem_of_mem_takeWhile isToolRole S0 m hm)
          | inr hm =>
            exact isAWTC_of_tool_role m (mkBackfillMsgs_role g1 la "rejected" _ 0 m hm)
      have hpos1 : lastAssistantPos (A ++ la :: (S0.takeWhile isToolRole ++
          mkBackfillMsgs g1 la "rejected" 0 ((unhandledOf la S0).filter isRejectedTC) ++
          S0.dropWhile isToolRole)) = some (A.length, la) :=
        lastAssistantPos_append la _ hAW hS' A
      have hdrop1 : (A ++ la :: (S0.takeWhile isToolRole ++
          mkBackfillMsgs g1 la "rejected" 0 ((unhandledOf la S0).filter isRejectedTC) ++
          S0.dropWhile isToolRole)).drop (A.length + 1) =
          S0.takeWhile isToolRole ++
          mkBackfillMsgs g1 la "rejected" 0 ((unhandledOf la S0).filter isRejectedTC) ++
          S0.dropWhile isToolRole := by
        have h0 := drop_append_cons la (S0.takeWhile isToolRole ++
          mkBackfillMsgs g1 la "rejected" 0 ((unhandledOf la S0).filter isRejectedTC) ++
          S0.dropWhile isToolRole) 0 A
        simpa using h0
      have hkey : ((unhandledOf la (S0.takeWhile isToolRole ++
          mkBackfillMsgs g1 la "rejected" 0 ((unhandledOf la S0).filter isRejectedTC) ++
          S0.dropWhile isToolRole)).filter isRejectedTC) = [] := by
        rw [List.filter_eq_nil_iff]
        intro tc htc hrej
        have htc2 : tc ∈ List.filter
            (fun tc => !(existingToolIds (S0.takeWhile isToolRole ++
              mkBackfillMsgs g1 la "rejected" 0 ((unhandledOf la S0).filter isRejectedTC) ++
              S0.dropWhile isToolRole)).contains tc.id) (la.tool_calls.getD []) := htc
        rw [List.mem_filter] at htc2
        obtain ⟨htcs, hnc⟩ := htc2
        have hmem : tc.id ∈ existingToolIds (S0.takeWhile isToolRole ++
            mkBackfillMsgs g1 la "rejected" 0 ((unhandledOf la S0).filter isRejectedTC) ++
            S0.dropWhile isToolRole) := by
          unfold existingToolIds
          rw [List.filterMap_append, List.filterMap_append]
          by_cases hmemS : tc.id ∈ existingToolIds S0
          · have hE : existingToolIds S0 =
                existingToolIds (S0.takeWhile isToolRole) ++
                existingToolIds (S0.dropWhile isToolRole) := by
              conv =>
                lhs
                rw [show S0 = S0.takeWhile isToolRole ++ S0.dropWhile isToolRole from
                  (List.takeWhile_append_dropWhile isToolRole S0).symm]
              exact List.filterMap_append _ _ _
            rw [hE, List.mem_append] at hmemS
            rw [List.mem_append, List.mem_append]
            cases hmemS with
            | inl h => exact Or.inl (Or.inl h)
            | inr h => exact Or.inr h
          · have htc0 : tc ∈ unhandledOf la S0 := by
              unfold unhandledOf
              rw [List.mem_filter]
              refine ⟨htcs, ?_⟩
              rw [Bool.not_eq_true']
              cases hx : (existingToolIds S0).contains tc.id
              · rfl
              · exfalso
                exact hmemS (List.mem_of_elem_eq_true hx)
            have htcR : tc ∈ (unhandledOf la S0).filter isRejectedTC :=
              List.mem_filter.mpr ⟨htc0, hrej⟩
            have : tc.id ∈ existingToolIds (mkBackfillMsgs g1 la "rejected" 0
                ((unhandledOf la S0).filter isRejectedTC)) := by
              rw [hEins]
              exact List.mem_map.mpr ⟨tc, htcR, rfl⟩
            rw [List.mem_append, List.mem_append]
            exact Or.inl (Or.inr this)
        rw [Bool.not_eq_true'] at hnc
        have h5 : (existingToolIds (S0.takeWhile isToolRole ++
            mkBackfillMsgs g1 la "rejected" 0 ((unhandledOf la S0).filter isRejectedTC) ++
            S0.dropWhile isToolRole)).contains tc.id = true :=
          List.elem_eq_true_of_mem hmem
        rw [hnc] at h5
        exact Bool.noConfusion h5
      rw [h1]
      rw [backfill_rejected_eq g2 _ A.length la hpos1]
      rw [hdrop1, hkey]
      rfl

def c8tc : ToolCall := { id := "", fname := "t", fargs := "\x7b\x7d", status := some TCStatus.rejected }

def c8asst : Message :=
  { role := "assistant", content := MContent.str "", timestamp := "ts", unix_timestamp := 5,
    id := some "A1", tool_calls := some [c8tc] }

/-- C8 counterexample: with a rejected tool call whose id is the empty
string, the tool message inserted by the first backfill has a falsy
`tool_call_id`, so the call stays "unhandled" and the second
application inserts again — the list keeps growing (1 → 2 → 3
messages), refuting idempotence as stated. -/
theorem claim8_counterexample :
    ((backfill_tool_results defaultGen
        (backfill_tool_results defaultGen [c8asst] "rejected").1 "rejected").2).isEmpty = false ∧
    ((backfill_tool_results defaultGen
        (backfill_tool_results defaultGen [c8asst] "rejected").1 "rejected").1).length = 3 ∧
    ((backfill_tool_results defaultGen [c8asst] "rejected").1).length = 2 :=
  ⟨rfl, rfl, rfl⟩

/-- Witness for C8 (amended) at a concrete chat state (nonempty id). -/
theorem claim8_witness :
    backfill_tool_results defaultGen
        (backfill_tool_results defaultGen [w3asst] "rejected").1 "rejected" =
      ((backfill_tool_results defaultGen [w3asst] "rejected").1, []) :=
  claim8_idempotent defaultGen defaultGen [w3asst]
    (by
      intro i la tc hpos htc
      have h1 : i = 0 ∧ la = w3asst := by
        have : lastAssistantPos [w3asst] = some (0, w3asst) := rfl
        rw [this] at hpos
        injection hpos with h2
        rw [Prod.mk.injEq] at h2
        exact ⟨h2.1.symm, h2.2.symm⟩
      rw [h1.2] at htc
      have : tc = w3tc := by
        have h3 : w3asst.tool_calls.getD [] = [w3tc] := rfl
        rw [h3] at htc
        exact List.mem_singleton.mp htc
      rw [this]
      intro hx
      exact String.noConfusion hx (fun hdata => List.noConfusion hdata))

theorem claim5_witness :
    (∃ store1,
      saveChatById defaultApiEnv [{ user_id := 1, chat := w5chat }]
        { w5chat with messages :=
            approveUpdatedMessages defaultApiEnv w5chat 0 w1asst w5req } = some store1 ∧
      post_approve defaultApiEnv 1 [{ user_id := 1, chat := w5chat }] w5req =
        HandlerResult.ok store1
          (if (updateDecisions w5req.decisions (w1asst.tool_calls.getD [])).any isPendingTC
           then [] else [w5req.chat_id]) Option.none) ∧
    (updateDecisions (fun _ => some true) [w1tc])[0]? =
      some { w1tc with status := some TCStatus.approved } :=
  ⟨claim5_approve_endpoint.2.2.1 defaultApiEnv 1 [{ user_id := 1, chat := w5chat }] w5req
      w5chat 0 w1asst rfl rfl rfl,
   claim5_approve_endpoint.2.2.2 (fun _ => some true) [w1tc] 0 w1tc rfl⟩

/-! ## Dict lookup lemmas for the serialization round trip -/

theorem dictGet_nil (k : String) : dictGet [] k = Option.none := rfl

theorem dictGet_cons_hit (k : String) (v : PyVal) (d : PyDict) :
    dictGet ((k, v) :: d) k = some v := by
  simp [dictGet, List.find?]

theorem dictGet_cons_skip (k2 k : String) (v : PyVal) (d : PyDict)
    (h : (k2 == k) = false) : dictGet ((k2, v) :: d) k = dictGet d k := by
  simp [dictGet, List.find?, h]

theorem dictGet_optField_self (k : String) (v : Option PyVal) (d : PyDict)
    (h : dictGet d k = Option.none) : dictGet (optField k v ++ d) k = v := by
  cases v with
  | none => simpa [optField]
  | some x => simp [optField, dictGet_cons_hit]

theorem dictGet_optField_skip (k2 k : String) (v : Option PyVal) (d : PyDict)
    (h : (k2 == k) = false) : dictGet (optField k2 v ++ d) k = dictGet d k := by
  cases v with
  | none => rfl
  | some x => simpa [optField] using dictGet_cons_skip k2 k x d h

theorem dictGet_optField_self0 (k : String) (v : Option PyVal) :
    dictGet (optField k v) k = v := by
  cases v with
  | none => rfl
  | some x => simp [optField, dictGet_cons_hit]

theorem dictGet_optField_skip0 (k2 k : String) (v : Option PyVal)
    (h : (k2 == k) = false) : dictGet (optField k2 v) k = Option.none := by
  cases v with
  | none => rfl
  | some x => simpa [optField] using dictGet_cons_skip k2 k x [] h

theorem dictGet_ifsingle_self (b : Bool) (k : String) (v : PyVal) (d : PyDict)
    (h : dictGet d k = Option.none) :
    dictGet ((if b then [(k, v)] else []) ++ d) k =
      (if b then some v else Option.none) := by
  cases b with
  | false => simpa
  | true => simp [dictGet_cons_hit]

theorem dictGet_ifsingle_skip (b : Bool) (k2 k : String) (v : PyVal) (d : PyDict)
    (h : (k2 == k) = false) :
    dictGet ((if b then [(k2, v)] else []) ++ d) k = dictGet d k := by
  cases b with
  | false => rfl
  | true => simpa using dictGet_cons_skip k2 k v d h

theorem dictGet_ifsingle_self0 (b : Bool) (k : String) (v : PyVal) :
    dictGet (if b then [(k, v)] else []) k = (if b then some v else Option.none) := by
  cases b with
  | false => rfl
  | true => simp [dictGet_cons_hit]

theorem dictGet_ifsingle_skip0 (b : Bool) (k2 k : String) (v : PyVal)
    (h : (k2 == k) = false) :
    dictGet (if b then [(k2, v)] else []) k = Option.none := by
  cases b with
  | false => rfl
  | true => simpa using dictGet_cons_skip k2 k v [] h

theorem msgGet_role (m : Message) :
    dictGet (Message.to_dict m) "role" = some (PyVal.str m.role) := by
  simp only [Message.to_dict, List.append_assoc, List.cons_append, List.nil_append]
  rw [dictGet_cons_hit]

theorem msgGet_content (m : Message) :
    dictGet (Message.to_dict m) "content" = some (encodeContent m.content) := by
  simp only [Message.to_dict, List.append_assoc, List.cons_append, List.nil_append]
  rw [dictGet_cons_skip _ _ _ _ (by decide), dictGet_cons_hit]

theorem msgGet_timestamp (m : Message) :
    dictGet (Message.to_dict m) "timestamp" = some (PyVal.str m.timestamp) := by
  simp only [Message.to_dict, List.append_assoc, List.cons_append, List.nil_append]
  rw [dictGet_cons_skip _ _ _ _ (by decide), dictGet_cons_skip _ _ _ _ (by decide),
      dictGet_cons_hit]

theorem msgGet_unix (m : Message) :
    dictGet (Message.to_dict m) "unix_timestamp" = some (PyVal.int m.unix_timestamp) := by
  simp only [Message.to_dict, List.append_assoc, List.cons_append, List.nil_append]
  rw [dictGet_cons_skip _ _ _ _ (by decide), dictGet_cons_skip _ _ _ _ (by decide),
      dictGet_cons_skip _ _ _ _ (by decide), dictGet_cons_hit]

theorem msgGet_rc (m : Message) :
    dictGet (Message.to_dict m) "reasoning_content" = m.reasoning_content.map PyVal.str := by
  simp only [Message.to_dict, List.append_assoc, List.cons_append, List.nil_append]
  rw [dictGet_cons_skip _ _ _ _ (by decide), dictGet_cons_skip _ _ _ _ (by decide),
      dictGet_cons_skip _ _ _ _ (by decide), dictGet_cons_skip _ _ _ _ (by decide),
      dictGet_optField_self]
  rw [dictGet_optField_skip _ _ _ _ (by decide), dictGet_optField_skip _ _ _ _ (by decide),
      dictGet_optField_skip _ _ _ _ (by decide), dictGet_optField_skip _ _ _ _ (by decide),
      dictGet_optField_skip _ _ _ _ (by decide), dictGet_optField_skip _ _ _ _ (by decide),
      dictGet_optField_skip _ _ _ _ (by decide), dictGet_optField_skip _ _ _ _ (by decide),
      dictGet_optField_skip _ _ _ _ (by decide), dictGet_optField_skip _ _ _ _ (by decide),
      dictGet_optField_skip _ _ _ _ (by decide), dictGet_optField_skip0 _ _ _ (by decide)]

theorem msgGet_re (m : Message) :
    dictGet (Message.to_dict m) "reasoning_effort" = m.reasoning_effort.map PyVal.str := by
  simp only [Message.to_dict, List.append_assoc, List.cons_append, List.nil_append]
  rw [dictGet_cons_skip _ _ _ _ (by decide), dictGet_cons_skip _ _ _ _ (by decide),
      dictGet_cons_skip _ _ _ _ (by decide), dictGet_cons_skip _ _ _ _ (by decide),
      dictGet_optField_skip _ _ _ _ (by decide), dictGet_optField_self]
  rw [dictGet_optField_skip _ _ _ _ (by decide), dictGet_optField_skip _ _ _ _ (by decide),
      dictGet_optField_skip _ _ _ _ (by decide), dictGet_optField_skip _ _ _ _ (by decide),
      dictGet_optField_skip _ _ _ _ (by decide), dictGet_optField_skip _ _ _ _ (by decide),
      dictGet_optField_skip _ _ _ _ (by decide), dictGet_optField_skip _ _ _ _ (by decide),
      dictGet_optField_skip _ _ _ _ (by decide), dictGet_optField_skip _ _ _ _ (by decide),
      dictGet_optField_skip0 _ _ _ (by decide)]

theorem msgGet_id (m : Message) :
    dictGet (Message.to_dict m) "id" = m.id.map PyVal.str := by
  simp only [Message.to_dict, List.append_assoc, List.cons_append, List.nil_append]
  rw [dictGet_cons_skip _ _ _ _ (by decide), dictGet_cons_skip _ _ _ _ (by decide),
      dictGet_cons_skip _ _ _ _ (by decide), dictGet_cons_skip _ _ _ _ (by decide),
      dictGet_optField_skip _ _ _ _ (by decide), dictGet_optField_skip _ _ _ _ (by decide),
      dictGet_optField_self]
  rw [dictGet_optField_skip _ _ _ _ (by decide), dictGet_optField_skip _ _ _ _ (by decide),
      dictGet_optField_skip _ _ _ _ (by decide), dictGet_optField_skip _ _ _ _ (by decide),
      dictGet_optField_skip _ _ _ _ (by decide), dictGet_optField_skip _ _ _ _ (by decide),
      dictGet_optField_skip _ _ _ _ (by decide), dictGet_optField_skip _ _ _ _ (by decide),
      dictGet_optField_skip _ _ _ _ (by decide), dictGet_optField_skip0 _ _ _ (by decide)]

theorem msgGet_parent (m : Message) :
    dictGet (Message.to_dict m) "parent_id" = m.parent_id.map PyVal.str := by
  simp only [Message.to_dict, List.append_assoc, List.cons_append, List.nil_append]
  rw [dictGet_cons_skip _ _ _ _ (by decide), dictGet_cons_skip _ _ _ _ (by decide),
      dictGet_cons_skip _ _ _ _ (by decide), dictGet_cons_skip _ _ _ _ (by decide),
      dictGet_optField_skip _ _ _ _ (by decide), dictGet_optField_skip _ _ _ _ (by decide),
      dictGet_optField_skip _ _ _ _ (by decide), dictGet_optField_self]
  rw [dictGet_optField_skip _ _ _ _ (by decide), dictGet_optField_skip _ _ _ _ (by decide),
      dictGet_optField_skip _ _ _ _ (by decide), dictGet_optField_skip _ _ _ _ (by decide),
      dictGet_optField_skip _ _ _ _ (by decide), dictGet_optField_skip _ _ _ _ (by decide),
      dictGet_optField_skip _ _ _ _ (by decide), dictGet_optField_skip _ _ _ _ (by decide),
      dictGet_optField_skip0 _ _ _ (by decide)]

theorem msgGet_links (m : Message) :
    dictGet (Message.to_dict m) "links" = m.links.map (fun l => PyVal.list (l.map PyVal.str)) := by
  simp only [Message.to_dict, List.append_assoc, List.cons_append, List.nil_append]
  rw [dictGet_cons_skip _ _ _ _ (by decide), dictGet_cons_skip _ _ _ _ (by decide),
      dictGet_cons_skip _ _ _ _ (by decide), dictGet_cons_skip _ _ _ _ (by decide),
      dictGet_optField_skip _ _ _ _ (by decide), dictGet_optField_skip _ _ _ _ (by decide),
      dictGet_optField_skip _ _ _ _ (by decide), dictGet_optField_skip _ _ _ _ (by decide),
      dictGet_optField_self]
  rw [dictGet_optField_skip _ _ _ _ (by decide), dictGet_optField_skip _ _ _ _ (by decide),
      dictGet_optField_skip _ _ _ _ (by decide), dictGet_optField_skip _ _ _ _ (by decide),
      dictGet_optField_skip _ _ _ _ (by decide), dictGet_optField_skip _ _ _ _ (by decide),
      dictGet_optField_skip _ _ _ _ (by decide), dictGet_optField_skip0 _ _ _ (by decide)]

theorem msgGet_images (m : Message) :
    dictGet (Message.to_dict m) "images" = m.images.map (fun l => PyVal.list (l.map PyVal.str)) := by
  simp only [Message.to_dict, List.append_assoc, List.cons_append, List.nil_append]
  rw [dictGet_cons_skip _ _ _ _ (by decide), dictGet_cons_skip _ _ _ _ (by decide),
      dictGet_cons_skip _ _ _ _ (by decide), dictGet_cons_skip _ _ _ _ (by decide),
      dictGet_optField_skip _ _ _ _ (by decide), dictGet_optField_skip _ _ _ _ (by decide),
      dictGet_optField_skip _ _ _ _ (by decide), dictGet_optField_skip _ _ _ _ (by decide),
      dictGet_optField_skip _ _ _ _ (by decide), dictGet_optField_self]
  rw [dictGet_optField_skip _ _ _ _ (by decide), dictGet_optField_skip _ _ _ _ (by decide),
      dictGet_optField_skip _ _ _ _ (by decide), dictGet_optField_skip _ _ _ _ (by decide),
      dictGet_optField_skip _ _ _ _ (by decide), dictGet_optField_skip _ _ _ _ (by decide),
      dictGet_optField_skip0 _ _ _ (by decide)]

theorem msgGet_model (m : Message) :
    dictGet (Message.to_dict m) "model" = m.model.map PyVal.str := by
  simp only [Message.to_dict, List.append_assoc, List.cons_append, List.nil_append]
  rw [dictGet_cons_skip _ _ _ _ (by decide), dictGet_cons_skip _ _ _ _ (by decide),
      dictGet_cons_skip _ _ _ _ (by decide), dictGet_cons_skip _ _ _ _ (by decide),
      dictGet_optField_skip _ _ _ _ (by decide), dictGet_optField_skip _ _ _ _ (by decide),
      dictGet_optField_skip _ _ _ _ (by decide), dictGet_optField_skip _ _ _ _ (by decide),
      dictGet_optField_skip _ _ _ _ (by decide), dictGet_optField_skip _ _ _ _ (by decide),
      dictGet_optField_self]
  rw [dictGet_optField_skip _ _ _ _ (by decide), dictGet_optField_skip _ _ _ _ (by decide),
      dictGet_optField_skip _ _ _ _ (by decide), dictGet_optField_skip _ _ _ _ (by decide),
      dictGet_optField_skip _ _ _ _ (by decide), dictGet_optField_skip0 _ _ _ (by decide)]

theorem msgGet_provider (m : Message) :
    dictGet (Message.to_dict m) "provider" = m.provider.map PyVal.str := by
  simp only [Message.to_dict, List.append_assoc, List.cons_append, List.nil_append]
  rw [dictGet_cons_skip _ _ _ _ (by decide), dictGet_cons_skip _ _ _ _ (by decide),
      dictGet_cons_skip _ _ _ _ (by decide), dictGet_cons_skip _ _ _ _ (by decide),
      dictGet_optField_skip _ _ _ _ (by decide), dictGet_optField_skip _ _ _ _ (by decide),
      dictGet_optField_skip _ _ _ _ (by decide), dictGet_optField_skip _ _ _ _ (by decide),
      dictGet_optField_skip _ _ _ _ (by decide), dictGet_optField_skip _ _ _ _ (by decide),
      dictGet_optField_skip _ _ _ _ (by decide), dictGet_optField_self]
  rw [dictGet_optField_skip _ _ _ _ (by decide), dictGet_optField_skip _ _ _ _ (by decide),
      dictGet_optField_skip _ _ _ _ (by decide), dictGet_optField_skip _ _ _ _ (by decide),
      dictGet_optField_skip0 _ _ _ (by decide)]

theorem msgGet_server (m : Message) :
    dictGet (Message.to_dict m) "server" = m.server.map PyVal.str := by
  simp only [Message.to_dict, List.append_assoc, List.cons_append, List.nil_append]
  rw [dictGet_cons_skip _ _ _ _ (by decide), dictGet_cons_skip _ _ _ _ (by decide),
      dictGet_cons_skip _ _ _ _ (by decide), dictGet_cons_skip _ _ _ _ (by decide),
      dictGet_optField_skip _ _ _ _ (by decide), dictGet_optField_skip _ _ _ _ (by decide),
      dictGet_optField_skip _ _ _ _ (by decide), dictGet_optField_skip _ _ _ _ (by decide),
      dictGet_optField_skip _ _ _ _ (by decide), dictGet_optField_skip _ _ _ _ (by decide),
      dictGet_optField_skip _ _ _ _ (by decide), dictGet_optField_skip _ _ _ _ (by decide),
      dictGet_optField_self]
  rw [dictGet_optField_skip _ _ _ _ (by decide), dictGet_optField_skip _ _ _ _ (by decide),
      dictGet_optField_skip _ _ _ _ (by decide), dictGet_optField_skip0 _ _ _ (by decide)]

theorem msgGet_tool (m : Message) :
    dictGet (Message.to_dict m) "tool" = m.tool.map PyVal.str := by
  simp only [Message.to_dict, List.append_assoc, List.cons_append, List.nil_append]
  rw [dictGet_cons_skip _ _ _ _ (by decide), dictGet_cons_skip _ _ _ _ (by decide),
      dictGet_cons_skip _ _ _ _ (by decide), dictGet_cons_skip _ _ _ _ (by decide),
      dictGet_optField_skip _ _ _ _ (by decide), dictGet_optField_skip _ _ _ _ (by decide),
      dictGet_optField_skip _ _ _ _ (by decide), dictGet_optField_skip _ _ _ _ (by decide),
      dictGet_optField_skip _ _ _ _ (by decide), dictGet_optField_skip _ _ _ _ (by decide),
      dictGet_optField_skip _ _ _ _ (by decide), dictGet_optField_skip _ _ _ _ (by decide),
      dictGet_optField_skip _ _ _ _ (by decide), dictGet_optField_self]
  rw [dictGet_optField_skip _ _ _ _ (by decide), dictGet_optField_skip _ _ _ _ (by decide),
      dictGet_optField_skip0 _ _ _ (by decide)]

theorem msgGet_args (m : Message) :
    dictGet (Message.to_dict m) "arguments" = m.arguments.map PyVal.dict := by
  simp only [Message.to_dict, List.append_assoc, List.cons_append, List.nil_append]
  rw [dictGet_cons_skip _ _ _ _ (by decide), dictGet_cons_skip _ _ _ _ (by decide),
      dictGet_cons_skip _ _ _ _ (by decide), dictGet_cons_skip _ _ _ _ (by decide),
      dictGet_optField_skip _ _ _ _ (by decide), dictGet_optField_skip _ _ _ _ (by decide),
      dictGet_optField_skip _ _ _ _ (by decide), dictGet_optField_skip _ _ _ _ (by decide),
      dictGet_optField_skip _ _ _ _ (by decide), dictGet_optField_skip _ _ _ _ (by decide),
      dictGet_optField_skip _ _ _ _ (by decide), dictGet_optField_skip _ _ _ _ (by decide),
      dictGet_optField_skip _ _ _ _ (by decide), dictGet_optField_skip _ _ _ _ (by decide),
      dictGet_optField_self]
  rw [dictGet_optField_skip _ _ _ _ (by decide), dictGet_optField_skip0 _ _ _ (by decide)]

theorem msgGet_tcs (m : Message) :
    dictGet (Message.to_dict m) "tool_calls" = m.tool_calls.map (fun tcs => PyVal.list (tcs.map encodeToolCall)) := by
  simp only [Message.to_dict, List.append_assoc, List.cons_append, List.nil_append]
  rw [dictGet_cons_skip _ _ _ _ (by decide), dictGet_cons_skip _ _ _ _ (by decide),
      dictGet_cons_skip _ _ _ _ (by decide), dictGet_cons_skip _ _ _ _ (by decide),
      dictGet_optField_skip _ _ _ _ (by decide), dictGet_optField_skip _ _ _ _ (by decide),
      dictGet_optField_skip _ _ _ _ (by decide), dictGet_optField_skip _ _ _ _ (by decide),
      dictGet_optField_skip _ _ _ _ (by decide), dictGet_optField_skip _ _ _ _ (by decide),
      dictGet_optField_skip _ _ _ _ (by decide), dictGet_optField_skip _ _ _ _ (by decide),
      dictGet_optField_skip _ _ _ _ (by decide), dictGet_optField_skip _ _ _ _ (by decide),
      dictGet_optField_skip _ _ _ _ (by decide), dictGet_optField_self]
  rw [dictGet_optField_skip0 _ _ _ (by decide)]

theorem msgGet_tcid (m : Message) :
    dictGet (Message.to_dict m) "tool_call_id" = m.tool_call_id.map PyVal.str := by
  simp only [Message.to_dict, List.append_assoc, List.cons_append, List.nil_append]
  rw [dictGet_cons_skip _ _ _ _ (by decide), dictGet_cons_skip _ _ _ _ (by decide),
      dictGet_cons_skip _ _ _ _ (by decide), dictGet_cons_skip _ _ _ _ (by decide),
      dictGet_optField_skip _ _ _ _ (by decide), dictGet_optField_skip _ _ _ _ (by decide),
      dictGet_optField_skip _ _ _ _ (by decide), dictGet_optField_skip _ _ _ _ (by decide),
      dictGet_optField_skip _ _ _ _ (by decide), dictGet_optField_skip _ _ _ _ (by decide),
      dictGet_optField_skip _ _ _ _ (by decide), dictGet_optField_skip _ _ _ _ (by decide),
      dictGet_optField_skip _ _ _ _ (by decide), dictGet_optField_skip _ _ _ _ (by decide),
      dictGet_optField_skip _ _ _ _ (by decide), dictGet_optField_skip _ _ _ _ (by decide),
      dictGet_optField_self0]

theorem chatGet_create (c : Chat) :
    dictGet (Chat.to_dict c) "create_time" = some (PyVal.str c.create_time) := by
  simp only [Chat.to_dict, List.append_assoc, List.cons_append, List.nil_append]
  rw [dictGet_cons_hit]

theorem chatGet_cid (c : Chat) :
    dictGet (Chat.to_dict c) "id" = some (PyVal.str c.id) := by
  simp only [Chat.to_dict, List.append_assoc, List.cons_append, List.nil_append]
  rw [dictGet_cons_skip _ _ _ _ (by decide), dictGet_cons_hit]

theorem chatGet_update (c : Chat) :
    dictGet (Chat.to_dict c) "update_time" = some (PyVal.str c.update_time) := by
  simp only [Chat.to_dict, List.append_assoc, List.cons_append, List.nil_append]
  rw [dictGet_cons_skip _ _ _ _ (by decide), dictGet_cons_skip _ _ _ _ (by decide),
      dictGet_cons_hit]

theorem chatGet_messages (c : Chat) :
    dictGet (Chat.to_dict c) "messages" = some (PyVal.list (c.messages.map (fun m => PyVal.dict (Message.to_dict m)))) := by
  simp only [Chat.to_dict, List.append_assoc, List.cons_append, List.nil_append]
  rw [dictGet_cons_skip _ _ _ _ (by decide), dictGet_cons_skip _ _ _ _ (by decide),
      dictGet_cons_skip _ _ _ _ (by decide), dictGet_cons_hit]

theorem chatGet_ext (c : Chat) :
    dictGet (Chat.to_dict c) "external_id" = c.external_id.map PyVal.str := by
  simp only [Chat.to_dict, List.append_assoc, List.cons_append, List.nil_append]
  rw [dictGet_cons_skip _ _ _ _ (by decide), dictGet_cons_skip _ _ _ _ (by decide),
      dictGet_cons_skip _ _ _ _ (by decide), dictGet_cons_skip _ _ _ _ (by decide),
      dictGet_optField_self]
  rw [dictGet_optField_skip _ _ _ _ (by decide), dictGet_optField_skip _ _ _ _ (by decide),
      dictGet_optField_skip _ _ _ _ (by decide), dictGet_ifsingle_skip _ _ _ _ _ (by decide),
      dictGet_ifsingle_skip0 _ _ _ _ (by decide)]

theorem chatGet_chash (c : Chat) :
    dictGet (Chat.to_dict c) "content_hash" = c.content_hash.map PyVal.str := by
  simp only [Chat.to_dict, List.append_assoc, List.cons_append, List.nil_append]
  rw [dictGet_cons_skip _ _ _ _ (by decide), dictGet_cons_skip _ _ _ _ (by decide),
      dictGet_cons_skip _ _ _ _ (by decide), dictGet_cons_skip _ _ _ _ (by decide),
      dictGet_optField_skip _ _ _ _ (by decide), dictGet_optField_self]
  rw [dictGet_optField_skip _ _ _ _ (by decide), dictGet_optField_skip _ _ _ _ (by decide),
      dictGet_ifsingle_skip _ _ _ _ _ (by decide), dictGet_ifsingle_skip0 _ _ _ _ (by decide)]

theorem chatGet_ocid (c : Chat) :
    dictGet (Chat.to_dict c) "origin_chat_id" = c.origin_chat_id.map PyVal.str := by
  simp only [Chat.to_dict, List.append_assoc, List.cons_append, List.nil_append]
  rw [dictGet_cons_skip _ _ _ _ (by decide), dictGet_cons_skip _ _ _ _ (by decide),
      dictGet_cons_skip _ _ _ _ (by decide), dictGet_cons_skip _ _ _ _ (by decide),
      dictGet_optField_skip _ _ _ _ (by decide), dictGet_optField_skip _ _ _ _ (by decide),
      dictGet_optField_self]
  rw [dictGet_optField_skip _ _ _ _ (by decide), dictGet_ifsingle_skip _ _ _ _ _ (by decide),
      dictGet_ifsingle_skip0 _ _ _ _ (by decide)]

theorem chatGet_omid (c : Chat) :
    dictGet (Chat.to_dict c) "origin_message_id" = c.origin_message_id.map PyVal.str := by
  simp only [Chat.to_dict, List.append_assoc, List.cons_append, List.nil_append]
  rw [dictGet_cons_skip _ _ _ _ (by decide), dictGet_cons_skip _ _ _ _ (by decide),
      dictGet_cons_skip _ _ _ _ (by decide), dictGet_cons_skip _ _ _ _ (by decide),
      dictGet_optField_skip _ _ _ _ (by decide), dictGet_optField_skip _ _ _ _ (by decide),
      dictGet_optField_skip _ _ _ _ (by decide), dictGet_optField_self]
  rw [dictGet_ifsingle_skip _ _ _ _ _ (by decide), dictGet_ifsingle_skip0 _ _ _ _ (by decide)]

theorem chatGet_auto (c : Chat) :
    dictGet (Chat.to_dict c) "auto_approve" =
      (if c.auto_approve then some (PyVal.bool true) else Option.none) := by
  simp only [Chat.to_dict, List.append_assoc, List.cons_append, List.nil_append]
  rw [dictGet_cons_skip _ _ _ _ (by decide), dictGet_cons_skip _ _ _ _ (by decide),
      dictGet_cons_skip _ _ _ _ (by decide), dictGet_cons_skip _ _ _ _ (by decide),
      dictGet_optField_skip _ _ _ _ (by decide), dictGet_optField_skip _ _ _ _ (by decide),
      dictGet_optField_skip _ _ _ _ (by decide), dictGet_optField_skip _ _ _ _ (by decide),
      dictGet_ifsingle_self]
  rw [dictGet_ifsingle_skip0 _ _ _ _ (by decide)]

theorem chatGet_intr (c : Chat) :
    dictGet (Chat.to_dict c) "interrupted" =
      (if c.interrupted then some (PyVal.bool true) else Option.none) := by
  simp only [Chat.to_dict, List.append_assoc, List.cons_append, List.nil_append]
  rw [dictGet_cons_skip _ _ _ _ (by decide), dictGet_cons_skip _ _ _ _ (by decide),
      dictGet_cons_skip _ _ _ _ (by decide), dictGet_cons_skip _ _ _ _ (by decide),
      dictGet_optField_skip _ _ _ _ (by decide), dictGet_optField_skip _ _ _ _ (by decide),
      dictGet_optField_skip _ _ _ _ (by decide), dictGet_optField_skip _ _ _ _ (by decide),
      dictGet_ifsingle_skip _ _ _ _ _ (by decide), dictGet_ifsingle_self0]

theorem chatGet_selected (c : Chat) :
    dictGet (Chat.to_dict c) "selected_message_id" = Option.none := by
  simp only [Chat.to_dict, List.append_assoc, List.cons_append, List.nil_append]
  rw [dictGet_cons_skip _ _ _ _ (by decide), dictGet_cons_skip _ _ _ _ (by decide),
      dictGet_cons_skip _ _ _ _ (by decide), dictGet_cons_skip _ _ _ _ (by decide),
      dictGet_optField_skip _ _ _ _ (by decide), dictGet_optField_skip _ _ _ _ (by decide),
      dictGet_optField_skip _ _ _ _ (by decide), dictGet_optField_skip _ _ _ _ (by decide),
      dictGet_ifsingle_skip _ _ _ _ _ (by decide), dictGet_ifsingle_skip0 _ _ _ _ (by decide)]
/-! ## Component parse inverses -/

theorem parseStatus_statusToStr (s : TCStatus) : parseStatus (statusToStr s) = some s := by
  cases s <;> rfl

theorem parseToolCall_encodeToolCall (tc : ToolCall) :
    parseToolCall (encodeToolCall tc) = some tc := by
  obtain ⟨i, f, a, s⟩ := tc
  cases s with
  | none => rfl
  | some st => cases st <;> rfl

theorem mapM_loop_parseToolCall (tcs : List ToolCall) (acc : List ToolCall) :
    List.mapM.loop parseToolCall (tcs.map encodeToolCall) acc = some (acc.reverse ++ tcs) := by
  induction tcs generalizing acc with
  | nil => simp [List.mapM.loop]
  | cons t ts ih => simp [List.mapM.loop, parseToolCall_encodeToolCall, ih]

theorem mapM_parseToolCall (tcs : List ToolCall) :
    (tcs.map encodeToolCall).mapM parseToolCall = some tcs := by
  simp [List.mapM, mapM_loop_parseToolCall]

theorem parsePart_encodePart (p : ContentPart) : parsePart (encodePart p) = some p := rfl

theorem mapM_loop_parsePart (ps : List ContentPart) (acc : List ContentPart) :
    List.mapM.loop parsePart (ps.map encodePart) acc = some (acc.reverse ++ ps) := by
  induction ps generalizing acc with
  | nil => simp [List.mapM.loop]
  | cons p ps ih => simp [List.mapM.loop, parsePart_encodePart, ih]

theorem mapM_parsePart (ps : List ContentPart) :
    (ps.map encodePart).mapM parsePart = some ps := by
  simp [List.mapM, mapM_loop_parsePart]

theorem parseContent_encodeContent (c : MContent) :
    parseContent (encodeContent c) = some c := by
  cases c with
  | str s => rfl
  | parts ps => simp [encodeContent, parseContent, List.mapM, mapM_loop_parsePart]

theorem mapM_loop_asStr (l : List String) (acc : List String) :
    List.mapM.loop asStr (l.map PyVal.str) acc = some (acc.reverse ++ l) := by
  induction l generalizing acc with
  | nil => simp [List.mapM.loop]
  | cons x xs ih => simp [List.mapM.loop, asStr, ih]

theorem mapM_asStr (l : List String) : (l.map PyVal.str).mapM asStr = some l := by
  simp [List.mapM, mapM_loop_asStr]

theorem parseOptStr_of_get (d : PyDict) (k : String) (o : Option String)
    (h : dictGet d k = o.map PyVal.str) : parseOptStr d k = some o := by
  cases o <;> simp [parseOptStr, h, asStr]

theorem parseOptStrList_of_get (d : PyDict) (k : String) (o : Option (List String))
    (h : dictGet d k = o.map (fun l => PyVal.list (l.map PyVal.str))) :
    parseOptStrList d k = some o := by
  cases o <;> simp [parseOptStrList, h, List.mapM, mapM_loop_asStr]

theorem parseOptArgs_of_get (d : PyDict) (o : Option PyDict)
    (h : dictGet d "arguments" = o.map PyVal.dict) : parseOptArgs d = some o := by
  cases o <;> simp [parseOptArgs, h]

theorem parseOptToolCalls_of_get (d : PyDict) (o : Option (List ToolCall))
    (h : dictGet d "tool_calls" = o.map (fun tcs => PyVal.list (tcs.map encodeToolCall))) :
    parseOptToolCalls d = some o := by
  cases o <;> simp [parseOptToolCalls, h, List.mapM, mapM_loop_parseToolCall]

theorem parseMsgReq_to_dict (m : Message) :
    parseMsgReq (Message.to_dict m) = some
      { role := m.role, content := m.content, timestamp := m.timestamp,
        unix_timestamp := m.unix_timestamp } := by
  simp [parseMsgReq, msgGet_role, msgGet_content, msgGet_timestamp, parseUnix, msgGet_unix,
        asStr, parseContent_encodeContent]

theorem parseMsgOptA_to_dict (m : Message) :
    parseMsgOptA (Message.to_dict m) = some
      { reasoning_content := m.reasoning_content, reasoning_effort := m.reasoning_effort,
        links := m.links, images := m.images, model := m.model, provider := m.provider } := by
  simp [parseMsgOptA,
    parseOptStr_of_get _ _ _ (msgGet_rc m), parseOptStr_of_get _ _ _ (msgGet_re m),
    parseOptStrList_of_get _ _ _ (msgGet_links m), parseOptStrList_of_get _ _ _ (msgGet_images m),
    parseOptStr_of_get _ _ _ (msgGet_model m), parseOptStr_of_get _ _ _ (msgGet_provider m)]

theorem parseMsgOptB_to_dict (m : Message) :
    parseMsgOptB (Message.to_dict m) = some
      { id := m.id, parent_id := m.parent_id, server := m.server, tool := m.tool,
        arguments := m.arguments, tool_calls := m.tool_calls,
        tool_call_id := m.tool_call_id } := by
  simp [parseMsgOptB,
    parseOptStr_of_get _ _ _ (msgGet_id m), parseOptStr_of_get _ _ _ (msgGet_parent m),
    parseOptStr_of_get _ _ _ (msgGet_server m), parseOptStr_of_get _ _ _ (msgGet_tool m),
    parseOptArgs_of_get _ _ (msgGet_args m), parseOptToolCalls_of_get _ _ (msgGet_tcs m),
    parseOptStr_of_get _ _ _ (msgGet_tcid m)]

theorem message_roundtrip (m : Message) :
    Message.from_dict (Message.to_dict m) = some m := by
  unfold Message.from_dict
  rw [parseMsgReq_to_dict, parseMsgOptA_to_dict, parseMsgOptB_to_dict]
  rfl
/-! ## Chat-level round trip -/

theorem insertByUnix_of_all_le (m : Message) :
    ∀ l : List Message, (∀ x ∈ l, x.unix_timestamp ≤ m.unix_timestamp) →
      insertByUnix m l = l ++ [m]
  | [], _ => rfl
  | x :: xs, h => by
    unfold insertByUnix
    rw [if_pos (h x (List.mem_cons_self x xs))]
    rw [insertByUnix_of_all_le m xs (fun y hy => h y (List.mem_cons_of_mem x hy))]
    rfl

theorem foldl_insertByUnix_sorted :
    ∀ (l acc : List Message),
      (∀ x ∈ acc, ∀ y ∈ l, x.unix_timestamp ≤ y.unix_timestamp) →
      l.Pairwise (fun a b => a.unix_timestamp ≤ b.unix_timestamp) →
      l.foldl (fun a m => insertByUnix m a) acc = acc ++ l
  | [], acc, _, _ => by simp
  | y :: ys, acc, hcross, hl => by
    rw [List.pairwise_cons] at hl
    obtain ⟨hy, hys⟩ := hl
    simp only [List.foldl_cons]
    rw [insertByUnix_of_all_le y acc (fun x hx => hcross x hx y (List.mem_cons_self y ys))]
    rw [foldl_insertByUnix_sorted ys (acc ++ [y]) ?_ hys]
    · simp
    · intro x hx z hz
      rcases List.mem_append.mp hx with h1 | h1
      · exact hcross x h1 z (List.mem_cons_of_mem y hz)
      · have hxy : x = y := by simpa using h1
        rw [hxy]
        exact hy z hz

theorem sortByUnix_sorted (l : List Message)
    (h : l.Pairwise (fun a b => a.unix_timestamp ≤ b.unix_timestamp)) :
    sortByUnix l = l := by
  have h0 := foldl_insertByUnix_sorted l []
    (fun x hx => absurd hx (List.not_mem_nil x)) h
  simpa [sortByUnix] using h0

theorem parseChatMessages_map_to_dict (msgs : List Message)
    (h : ∀ m ∈ msgs, m.role ≠ "system") :
    parseChatMessages (msgs.map (fun m => PyVal.dict (Message.to_dict m))) = some msgs := by
  induction msgs with
  | nil => rfl
  | cons m ms ih =>
    simp only [List.map_cons, parseChatMessages]
    rw [msgGet_role, ih (fun x hx => h x (List.mem_cons_of_mem m hx))]
    have hb : (m.role == "system") = false :=
      beq_eq_false_iff_ne.mpr (h m (List.mem_cons_self m ms))
    simp [asStr, hb, message_roundtrip]
    exact h m (List.mem_cons_self m ms)

theorem parseChatReq_to_dict (c : Chat) (hsys : ∀ m ∈ c.messages, m.role ≠ "system") :
    parseChatReq (Chat.to_dict c) = some
      { id := c.id, create_time := c.create_time, update_time := c.update_time,
        messages := c.messages } := by
  simp [parseChatReq, chatGet_cid, chatGet_create, chatGet_update, chatGet_messages,
        asStr, parseChatMessages_map_to_dict c.messages hsys]

theorem parseChatOpt_to_dict (c : Chat) :
    parseChatOpt (Chat.to_dict c) = some
      { external_id := c.external_id, content_hash := c.content_hash,
        origin_chat_id := c.origin_chat_id } := by
  simp [parseChatOpt,
    parseOptStr_of_get _ _ _ (chatGet_ext c), parseOptStr_of_get _ _ _ (chatGet_chash c),
    parseOptStr_of_get _ _ _ (chatGet_ocid c)]

theorem originMessageId_to_dict (c : Chat) (h : c.origin_message_id ≠ some "") :
    originMessageId (Chat.to_dict c) = c.origin_message_id := by
  unfold originMessageId
  rw [chatGet_omid, chatGet_selected]
  cases ho : c.origin_message_id with
  | none => rfl
  | some s =>
    have hne : s ≠ "" := by
      intro he
      rw [he] at ho
      exact h ho
    have hb : s.isEmpty = false := by
      cases hx : s.isEmpty
      · rfl
      · exact absurd ((String.isEmpty_iff s).mp hx) hne
    simp [hb]

theorem chat_roundtrip (c : Chat)
    (hsys : ∀ m ∈ c.messages, m.role ≠ "system")
    (hsort : c.messages.Pairwise (fun a b => a.unix_timestamp ≤ b.unix_timestamp))
    (horig : c.origin_message_id ≠ some "") :
    Chat.from_dict (Chat.to_dict c) = some c := by
  obtain ⟨cid, ct, ut, msgs, ext, chash, ocid, omid, auto, intr⟩ := c
  unfold Chat.from_dict
  rw [parseChatReq_to_dict _ hsys, parseChatOpt_to_dict]
  rw [chatGet_auto, chatGet_intr, originMessageId_to_dict _ horig]
  simp only [Option.bind_eq_bind, Option.some_bind]
  rw [sortByUnix_sorted _ hsort]
  cases auto <;> cases intr <;> rfl
def c9mA : Message :=
  { role := "user", content := MContent.str "first", timestamp := "t1", unix_timestamp := 1 }

def c9mB : Message :=
  { role := "user", content := MContent.str "second", timestamp := "t2", unix_timestamp := 2 }

def c9chat : Chat :=
  { id := "c9", create_time := "ct", update_time := "ut", messages := [c9mB, c9mA] }

/-- C9 counterexample: a chat whose messages are not sorted by
`unix_timestamp` (here timestamps `[2, 1]`) does not round trip:
`Chat.from_dict` re-sorts the parsed messages, so the result carries the
messages in order `[1, 2]` — the message order is not preserved, and the
re-serialized JSON differs beyond field ordering. -/
theorem claim9_counterexample :
    (Chat.from_dict (Chat.to_dict c9chat)).map
        (fun c => c.messages.map (fun m => m.unix_timestamp)) = some [1, 2] ∧
    c9chat.messages.map (fun m => m.unix_timestamp) = [2, 1] :=
  ⟨rfl, rfl⟩

/-- C9 (corrected): `Message.to_dict` followed by `Message.from_dict`
restores every message exactly.  For chats the round trip holds only
under the conditions the source imposes: `Chat.from_dict` re-sorts the
messages by `unix_timestamp` and drops `role == "system"` entries, and
`origin_message_id` is read back with Python `or`, which loses an empty
string.  For a chat with no system messages, messages already sorted by
`unix_timestamp`, and `origin_message_id ≠ some ""`, `Chat.to_dict`
followed by `Chat.from_dict` restores the chat exactly. -/
theorem claim9_roundtrip :
    (∀ m : Message, Message.from_dict (Message.to_dict m) = some m) ∧
    ∀ c : Chat, (∀ m ∈ c.messages, m.role ≠ "system") →
      c.messages.Pairwise (fun a b => a.unix_timestamp ≤ b.unix_timestamp) →
      c.origin_message_id ≠ some "" →
      Chat.from_dict (Chat.to_dict c) = some c :=
  ⟨message_roundtrip, chat_roundtrip⟩

def w9m : Message :=
  { role := "assistant", content := MContent.parts [{ text := "hi", type := "text" }],
    timestamp := "2025-01-01T00:00:00+00:00", unix_timestamp := 1000,
    reasoning_content := some "because", model := some "m1", provider := some "p1",
    id := some "msg-1", parent_id := some "msg-0", links := some ["l1"],
    tool_calls := some [{ id := "call_1", fname := "Bash", fargs := "\x7b\x7d",
                          status := some TCStatus.approved }] }

def w9m2 : Message :=
  { role := "tool", content := MContent.str "ok", timestamp := "2025-01-01T00:00:01+00:00",
    unix_timestamp := 2000, tool := some "Bash", arguments := some [],
    tool_call_id := some "call_1" }

def w9c : Chat :=
  { id := "c1", create_time := "ct", update_time := "ut", messages := [w9m, w9m2],
    external_id := some "e1", origin_message_id := some "om", auto_approve := true,
    interrupted := true }

theorem claim9_witness :
    Message.from_dict (Message.to_dict w9m) = some w9m ∧
    Chat.from_dict (Chat.to_dict w9c) = some w9c :=
  ⟨claim9_roundtrip.1 w9m,
   claim9_roundtrip.2 w9c (by decide) (by decide) (by decide)⟩
end YCli
